import Mathlib

/-!
# aztfy: resource discovery and mapping pipeline

A shallow embedding of the Go sources

* `internal/resourceid/{id,arm_id,msgraph_id}.go`
* `internal/resourceset/azure_resource_set_hack.go`
* `internal/meta/meta_res.go`
* `pkg/meta/meta.go`

Go slices are lists, `int` indices produced by `range` are natural numbers,
a `(value, error)` result is an `Except`, and a method that mutates its
receiver returns the receiver's new state.  Functions of other modules
(`armid.ParseResourceId`, `aztft.QueryId`, `json.Marshal`, `gjson.GetBytes`)
are parameters, gathered in a record of collaborators.
-/

set_option autoImplicit false

namespace Aztfy

/-! ## Go strings -/

/-- Upper-case mapping of one rune as `strings.ToUpper` applies it.  The two
non-ASCII runes whose upper case is an ASCII letter (dotless i, long s) are
mapped; every other non-ASCII rune is left alone, which agrees with Go
whenever the result is compared with an ASCII string. -/
def upperRune (c : Char) : Char :=
  if c = Char.ofNat 0x131 then 'I'
  else if c = Char.ofNat 0x17F then 'S'
  else c.toUpper

/-- The function `strings.ToUpper`, see `upperRune`. -/
def ToUpper (s : String) : String := String.mk (s.data.map upperRune)

/-- Canonical representative of the simple case-folding orbit of a rune, for
the orbits that contain an ASCII letter: the Kelvin sign folds with `k` and
the long s with `s`.  Other runes are left alone, which agrees with Go
whenever one side of the comparison is an ASCII string. -/
def foldRune (c : Char) : Char :=
  if c = Char.ofNat 0x212A then 'k'
  else if c = Char.ofNat 0x17F then 's'
  else c.toLower

/-- The function `strings.EqualFold`, see `foldRune`. -/
def EqualFold (s t : String) : Bool :=
  s.data.map foldRune == t.data.map foldRune

/-- The verb `%d` of `fmt.Sprintf` on a non-negative `int`. -/
def fmtD (n : Nat) : String := toString n

/-- The escape that the verb `%q` writes for one rune: a backslash before a
double quote and before a backslash, the letter escapes of the seven control
characters that have one, and `\x` with two hexadecimal digits for the other
ASCII control characters.  A printable rune stands for itself; so does, here,
a non-ASCII rune that Go does not print. -/
def quoteRune (c : Char) : List Char :=
  if c = Char.ofNat 34 then [Char.ofNat 92, Char.ofNat 34]
  else if c = Char.ofNat 92 then [Char.ofNat 92, Char.ofNat 92]
  else if c = Char.ofNat 7 then [Char.ofNat 92, 'a']
  else if c = Char.ofNat 8 then [Char.ofNat 92, 'b']
  else if c = Char.ofNat 12 then [Char.ofNat 92, 'f']
  else if c = Char.ofNat 10 then [Char.ofNat 92, 'n']
  else if c = Char.ofNat 13 then [Char.ofNat 92, 'r']
  else if c = Char.ofNat 9 then [Char.ofNat 92, 't']
  else if c = Char.ofNat 11 then [Char.ofNat 92, 'v']
  else if c.toNat < 32 ∨ c.toNat = 127 then
    [Char.ofNat 92, 'x', Nat.digitChar (c.toNat / 16), Nat.digitChar (c.toNat % 16)]
  else [c]

/-- The verb `%q` of `fmt.Errorf` on a string (`strconv.Quote`): the string
in double quotes, each rune written as `quoteRune` gives it. -/
def fmtQ (s : String) : String :=
  String.mk ([Char.ofNat 34] ++ (s.data.map quoteRune).flatten ++ [Char.ofNat 34])

/-! ## Package `armid` (github.com/magodo/armid)

The resource id variants of the library and the accessors that the sources
call.  `ScopedResourceId` is the variant whose fields `AttrTypes` and
`AttrNames` the sources edit in place. -/

namespace armid

/-- The interface `armid.ResourceId`: the root scopes and `ScopedResourceId`
(`AttrParentScope`, `AttrProvider`, `AttrTypes`, `AttrNames`). -/
inductive ResourceId where
  | TenantId
  | SubscriptionId (Id : String)
  | ResourceGroup (SubscriptionId Name : String)
  | ManagementGroup (Name : String)
  | ScopedResourceId (AttrParentScope : ResourceId) (AttrProvider : String)
      (AttrTypes AttrNames : List String)
  deriving DecidableEq, Repr

namespace ResourceId

/-- Method `Names()`. -/
def Names : ResourceId → List String
  | TenantId => []
  | SubscriptionId id => [id]
  | ResourceGroup sub name => [sub, name]
  | ManagementGroup name => [name]
  | ScopedResourceId _ _ _ names => names

/-- Method `Types()`. -/
def Types : ResourceId → List String
  | TenantId => []
  | SubscriptionId _ => ["subscriptions"]
  | ResourceGroup _ _ => ["subscriptions", "resourceGroups"]
  | ManagementGroup _ => ["managementGroups"]
  | ScopedResourceId _ _ types _ => types

/-- Method `RouteScopeString()`: for a scoped id, the provider followed by the
type segments. -/
def RouteScopeString : ResourceId → String
  | TenantId => "/"
  | SubscriptionId _ => "/subscriptions"
  | ResourceGroup _ _ => "/subscriptions/resourceGroups"
  | ManagementGroup _ => "/Microsoft.Management/managementGroups"
  | ScopedResourceId _ provider types _ => "/" ++ provider ++ "/" ++ "/".intercalate types

/-- Method `Clone()`: a deep copy, which for a value is the value. -/
def Clone (id : ResourceId) : ResourceId := id

/-- Method `Parent()`: the id one segment up inside the same provider, `none`
(Go `nil`) for a root scope and for a scoped id of a single segment. -/
def Parent : ResourceId → Option ResourceId
  | ScopedResourceId scope provider types names =>
      if types.length ≤ 1 then none
      else some (ScopedResourceId scope provider types.dropLast names.dropLast)
  | _ => none

/-- Method `ParentScope()`: `none` (Go `nil`) for a root scope. -/
def ParentScope : ResourceId → Option ResourceId
  | ScopedResourceId scope _ _ _ => some scope
  | _ => none

/-- Modelled from the spec: the method `Equal` of an `armid` identifier,
which is outside the listed sources; of the hierarchical identity the spec
says "value equality by structural comparison": two identifiers are equal
when they are the same variant with the same scope, provider, type segments
and name segments. -/
def Equal (x y : ResourceId) : Bool := decide (x = y)

end ResourceId

end armid

/-! ## Package `resourceid` -/

namespace resourceid

/-- The struct `ArmResourceId`. -/
structure ArmResourceId where
  id : armid.ResourceId
  deriving DecidableEq, Repr

/-- The struct `MsGraphResourceId`. -/
structure MsGraphResourceId where
  id : String
  deriving DecidableEq, Repr

/-- The interface `AzureResourceId`.  A non-nil interface value holds a
pointer to one of the two structs above, and that pointer may itself be `nil`
(`none`): `arm none` is the interface value that holds `(*ArmResourceId)(nil)`.
The `nil` interface value is `none` of `Option AzureResourceId`. -/
inductive AzureResourceId where
  | arm (a : Option ArmResourceId)
  | msgraph (m : Option MsGraphResourceId)
  deriving DecidableEq, Repr

/-- The constructor `NewArmResourceId`: a pointer to a new struct. -/
def NewArmResourceId (id : armid.ResourceId) : AzureResourceId := .arm (some ⟨id⟩)

/-- The constructor `NewMsGraphResourceId`: a pointer to a new struct. -/
def NewMsGraphResourceId (id : String) : AzureResourceId := .msgraph (some ⟨id⟩)

/-- Method `(*ArmResourceId).Equal`.  The receiver `a` is a pointer, `none`
when it is `nil`.  The result is `none` when the call panics: the test
`id == nil` is on the interface value, so an `id` that holds a `nil`
`*ArmResourceId` passes it and the type assertion, and `armid.id` dereferences
`nil`. -/
def ArmResourceId.Equal (a : Option ArmResourceId) (id : Option AzureResourceId) :
    Option Bool :=
  match a, id with
  | none, _ => some false
  | some _, none => some false
  | some _, some (.msgraph _) => some false
  | some _, some (.arm none) => none
  | some a, some (.arm (some armid)) => some (a.id.Equal armid.id)

/-- Method `(*MsGraphResourceId).Equal`, with the result `none` when the call
panics: an `id` that holds a `nil` `*MsGraphResourceId` passes the test
`id == nil` and the type assertion, and `msgid.id` dereferences `nil`. -/
def MsGraphResourceId.Equal (m : Option MsGraphResourceId) (id : Option AzureResourceId) :
    Option Bool :=
  match m, id with
  | none, _ => some false
  | some _, none => some false
  | some _, some (.arm _) => some false
  | some _, some (.msgraph none) => none
  | some m, some (.msgraph (some msgid)) => some (m.id == msgid.id)

/-- The interface value holds a `nil` pointer. -/
def AzureResourceId.holdsNil : AzureResourceId → Bool
  | .arm none => true
  | .msgraph none => true
  | _ => false

/-- Interface call `a.Equal(id)` on a non-nil interface value `a`: the method
of the pointer that `a` holds. -/
def AzureResourceId.Equal (a : AzureResourceId) (id : Option AzureResourceId) : Option Bool :=
  match a with
  | .arm x => ArmResourceId.Equal x id
  | .msgraph x => MsGraphResourceId.Equal x id

end resourceid

/-! ## Package `resourceset`: data -/

namespace resourceset

/-- Modelled from the spec: the struct `PesudoResourceInfo`, declared outside
the listed sources: "optional { TargetType: string, TargetId: string }", under
the field names `TFType` and `TFId` that the sources write. -/
structure PesudoResourceInfo where
  TFType : String
  TFId : String
  deriving DecidableEq, Repr

/-- Modelled from the spec: the struct `AzureResource`, declared outside the
listed sources: "{ Id: ResourceIdentity, Properties: optional raw structured
document, PseudoInfo: optional { TargetType: string, TargetId: string } }".
`Doc` is the type of the raw document. -/
structure AzureResource (Doc : Type) where
  Id : armid.ResourceId
  Properties : Option Doc := none
  PesudoResourceInfo : Option PesudoResourceInfo := none
  deriving DecidableEq, Repr

/-- Modelled from the spec: the struct `TFResource`, declared outside the
listed sources, the output of the type mapper for one resource: its raw id,
its "best-guess target type and id".  The fields are the ones that
`ListResource` reads, `AzureId`, `TFId` and `TFType`. -/
structure TFResource where
  AzureId : armid.ResourceId
  TFId : String
  TFType : String
  deriving DecidableEq, Repr

end resourceset

/-! ## Package `internal/meta` -/

namespace meta

open resourceset

/-- Modelled from the spec: the struct `tfaddr.TFAddr`, declared outside the
listed sources: "Address: { Type: string, Name: string }".  Its field `Type`
is `Typ` here. -/
structure TFAddr where
  Typ : String
  Name : String
  deriving DecidableEq, Repr

/-- Modelled from the spec: the struct `ImportItem`, declared outside the
listed sources: "{ SourceId: ResourceIdentity, TargetId: string, Address:
{ Type: string, Name: string }, AddressCache: same shape as Address,
IsRecommended: bool }", under the field names that `ListResource` writes.  A
field that `ListResource` leaves out has its zero value. -/
structure ImportItem where
  AzureResourceID : resourceid.AzureResourceId
  TFResourceId : String
  TFAddr : meta.TFAddr
  TFAddrCache : meta.TFAddr
  IsRecommended : Bool := false
  deriving DecidableEq, Repr

/-- Modelled from the spec: the type `ImportList`, "an ordered sequence of
ImportItem". -/
abbrev ImportList := List ImportItem

/-- The struct `MetaResource` with the field `providerName` of its embedded
`baseMeta`. -/
structure MetaResource where
  providerName : String
  ResourceIds : List String
  ResourceName : String
  ResourceType : String
  resourceNamePrefix : String
  resourceNameSuffix : String
  deriving DecidableEq, Repr

/-- What `ListResource` calls outside its own file: `armid.ParseResourceId`,
the method `String` of an `armid` id, the two mappers of the resource set
(`ToTFAzAPIResources`, `ToTFAzureRMResources`, with the logger, parallelism
and credentials of the receiver fixed) and `aztft.QueryId` (credentials
fixed).  The resources that `ListResource` builds carry an id only, so their
document type is `Unit`. -/
structure Collaborators where
  ParseResourceId : String → Except String armid.ResourceId
  IdString : armid.ResourceId → String
  ToTFAzAPIResources : List (AzureResource Unit) → List TFResource
  ToTFAzureRMResources : List (AzureResource Unit) → List TFResource
  QueryId : String → String → Except String String

/-- Method `tfResourceName`.  The `else` branch of the inner test formats a
name and drops it, so control leaves the outer `if` and reaches the final
`return`. -/
def MetaResource.tfResourceName (m : MetaResource) (idx : Nat) (single : Bool) : String :=
  if single then
    if m.ResourceName != "" then
      m.ResourceName
    else
      m.resourceNamePrefix ++ fmtD idx ++ m.resourceNameSuffix
  else
    m.resourceNamePrefix ++ fmtD idx ++ m.resourceNameSuffix

/-- Body of the loop of the `azuread` case, for the id at position `i`. -/
def azureadItem (m : MetaResource) (i : Nat) (id : String) : ImportItem :=
  let tfAddr : TFAddr :=
    { Typ := m.ResourceType
      Name := m.tfResourceName i (m.ResourceIds.length == 1) }
  { AzureResourceID := resourceid.NewMsGraphResourceId id
    TFResourceId := id
    TFAddr := tfAddr
    TFAddrCache := tfAddr }

/-- The loop of the `azuread` case over the ids from position `i` on. -/
def azureadLoop (m : MetaResource) : Nat → List String → ImportList
  | _, [] => []
  | i, id :: ids => azureadItem m i id :: azureadLoop m (i + 1) ids

/-- The loop that parses the ids into resources; the first failure ends
`ListResource`. -/
def parseLoop (c : Collaborators) : List String → Except String (List (AzureResource Unit))
  | [] => .ok []
  | id :: ids =>
    match c.ParseResourceId id with
    | .error err => .error ("parsing ARM resource id " ++ fmtQ id ++ ": " ++ err)
    | .ok rid =>
      match parseLoop c ids with
      | .error e => .error e
      | .ok resources => .ok ({ Id := rid } :: resources)

/-- Body of the loop of the `azurerm`/`azapi` case for the mapped resource
at position `i`; `n` is `len(rl)`. -/
def armItem (c : Collaborators) (m : MetaResource) (n i : Nat) (res : TFResource) :
    Except String ImportItem :=
  let tfAddr : TFAddr :=
    { Typ := res.TFType
      Name := m.tfResourceName i (n == 1) }
  let item : ImportItem :=
    { AzureResourceID := resourceid.NewArmResourceId res.AzureId
      TFResourceId := res.TFId
      TFAddr := tfAddr
      TFAddrCache := tfAddr
      IsRecommended := m.ResourceType == "" }
  if m.ResourceType != "" && m.ResourceType != res.TFType then
    match c.QueryId (c.IdString res.AzureId) m.ResourceType with
    | .error err => .error err
    | .ok tfid =>
      .ok { item with
            TFResourceId := tfid
            TFAddr := { item.TFAddr with Typ := m.ResourceType }
            TFAddrCache := { item.TFAddrCache with Typ := m.ResourceType }
            IsRecommended := false }
  else
    .ok item

/-- The loop of the `azurerm`/`azapi` case over the mapped resources from
position `i` on; a failed query ends `ListResource` with no list. -/
def armLoop (c : Collaborators) (m : MetaResource) (n : Nat) :
    Nat → List TFResource → Except String ImportList
  | _, [] => .ok []
  | i, res :: rest =>
    match armItem c m n i res with
    | .error e => .error e
    | .ok item =>
      match armLoop c m n (i + 1) rest with
      | .error e => .error e
      | .ok l => .ok (item :: l)

/-- The list `rl` of the `azurerm`/`azapi` case for parsed resources. -/
def mapResources (c : Collaborators) (m : MetaResource) (resources : List (AzureResource Unit)) :
    List TFResource :=
  if m.providerName == "azapi" then c.ToTFAzAPIResources resources
  else c.ToTFAzureRMResources resources

/-- Method `ListResource`. -/
def MetaResource.ListResource (c : Collaborators) (m : MetaResource) : Except String ImportList :=
  if m.providerName == "azuread" then
    .ok (azureadLoop m 0 m.ResourceIds)
  else if m.providerName == "azurerm" || m.providerName == "azapi" then
    match parseLoop c m.ResourceIds with
    | .error e => .error e
    | .ok resources =>
      let rl := mapResources c m resources
      armLoop c m rl.length 0 rl
  else
    .error ("unknown resource provider type: " ++ m.providerName)

/-- The list `rl` that `ListResource` iterates in the `azurerm`/`azapi`
case, and the id list in the `azuread` case, as what the items are numbered
over: the batch. -/
def batchLength (c : Collaborators) (m : MetaResource) : Nat :=
  if m.providerName == "azuread" then m.ResourceIds.length
  else
    match parseLoop c m.ResourceIds with
    | .error _ => 0
    | .ok resources => (mapResources c m resources).length

end meta

/-! ## Package `resourceset`: `azure_resource_set_hack.go` -/

namespace resourceset

/-- How a call ends when it does not end normally: with a returned `error`
value, or with a run-time panic (index out of range, failed type assertion,
method call on a `nil` interface). -/
inductive Failure where
  | error (msg : String)
  | panic (msg : String)
  deriving DecidableEq, Repr

/-- The wrapping `fmt.Errorf(pre + "%v", err)` of a returned error; a panic
is not caught. -/
def Failure.wrap (pre : String) : Failure → Failure
  | .error msg => .error (pre ++ msg)
  | .panic msg => .panic msg

/-- What the file calls in other modules: `armid.ParseResourceId`, the method
`String` of an `armid` id, `aztft.QueryId` (third argument `false`),
`json.Marshal` applied to the `Properties` of a resource,
`gjson.GetBytes`, whose result is `none` when `Exists()` is false and
otherwise the `String()` of each element of `Array()`, and the verb `%v` of
`fmt.Errorf` applied to the `Properties` of a resource. -/
structure Collaborators (Doc : Type) where
  ParseResourceId : String → Except String armid.ResourceId
  IdString : armid.ResourceId → String
  QueryId : String → String → Except String String
  Marshal : Option Doc → Except String String
  GetBytes : String → String → Option (List String)
  FormatProperties : Option Doc → String

variable {Doc : Type}

/-- The inner loop of `populateResourceByPath`: parse each extracted id. -/
def parseIds (c : Collaborators Doc) : List String → Except String (List (AzureResource Doc))
  | [] => .ok []
  | mid :: rest =>
    match c.ParseResourceId mid with
    | .error err => .error ("parsing managed resource id " ++ mid ++ ": " ++ err)
    | .ok id =>
      match parseIds c rest with
      | .error e => .error e
      | .ok resources => .ok ({ Id := id } :: resources)

/-- The outer loop of `populateResourceByPath` over the paths, on the
marshalled document `b`. -/
def pathLoop (c : Collaborators Doc) (b : String) :
    List String → Except String (List (AzureResource Doc))
  | [] => .ok []
  | path :: rest =>
    match c.GetBytes b path with
    | none => pathLoop c b rest
    | some mids =>
      match parseIds c mids with
      | .error e => .error e
      | .ok found =>
        match pathLoop c b rest with
        | .error e => .error e
        | .ok more => .ok (found ++ more)

/-- The function `populateResourceByPath`. -/
def populateResourceByPath (c : Collaborators Doc) (res : AzureResource Doc)
    (paths : List String) : Except String (List (AzureResource Doc)) :=
  match c.Marshal res.Properties with
  | .error err =>
    .error ("marshaling " ++ c.FormatProperties res.Properties ++ ": " ++ err)
  | .ok b => pathLoop c b paths

/-- The loop of `populateForVirtualMachine` that adds the association
resource of each disk to the set `acc`. -/
def attachLoop (c : Collaborators Doc) (res : AzureResource Doc) :
    List (AzureResource Doc) → List (AzureResource Doc) →
      List (AzureResource Doc) × Option Failure
  | [], acc => (acc, none)
  | disk :: rest, acc =>
    match disk.Id.Names with
    | [] => (acc, some (.panic "index out of range"))
    | diskName :: _ =>
      match c.QueryId (c.IdString res.Id) "azurerm_linux_virtual_machine" with
      | .error err =>
        (acc, some (.error ("querying resource id for " ++ c.IdString res.Id ++ ": " ++ err)))
      | .ok vmTFId =>
        match res.Id.Clone with
        | .ScopedResourceId scope provider types names =>
          attachLoop c res rest (acc ++ [
            { Id := .ScopedResourceId scope provider (types ++ ["dataDisks"]) (names ++ [diskName])
              PesudoResourceInfo := some
                { TFType := "azurerm_virtual_machine_data_disk_attachment"
                  TFId := vmTFId ++ "/dataDisks/" ++ diskName } }])
        | _ => (acc, some (.panic "interface conversion"))

/-- Body of the loop of `populateForVirtualMachine` for one resource of the
snapshot, on the current set `acc`. -/
def vmStep (c : Collaborators Doc) (acc : List (AzureResource Doc)) (res : AzureResource Doc) :
    List (AzureResource Doc) × Option Failure :=
  if ToUpper res.Id.RouteScopeString != "/MICROSOFT.COMPUTE/VIRTUALMACHINES" then
    (acc, none)
  else
    match populateResourceByPath c res
        ["properties.storageProfile.dataDisks.#.managedDisk.id"] with
    | .error err =>
      (acc, some (.error
        ("populating managed disks for " ++ fmtQ (c.IdString res.Id) ++ ": " ++ err)))
    | .ok disks => attachLoop c res disks (acc ++ disks)

/-- A `for _, res := range rset.Resources[:]` loop: the snapshot taken when
the loop starts is walked, `step` updates the set, the first failure ends the
loop and leaves the set as it then is. -/
def rangeLoop (step : List (AzureResource Doc) → AzureResource Doc →
      List (AzureResource Doc) × Option Failure) :
    List (AzureResource Doc) → List (AzureResource Doc) →
      List (AzureResource Doc) × Option Failure
  | [], acc => (acc, none)
  | res :: rest, acc =>
    match step acc res with
    | (acc2, none) => rangeLoop step rest acc2
    | (acc2, some f) => (acc2, some f)

/-- Method `populateForVirtualMachine`: the new `rset.Resources` and the
failure, if any. -/
def populateForVirtualMachine (c : Collaborators Doc) (Resources : List (AzureResource Doc)) :
    List (AzureResource Doc) × Option Failure :=
  rangeLoop (vmStep c) Resources Resources

/-- The function `networkInterfacePopulateNSGAssociation`. -/
def networkInterfacePopulateNSGAssociation (c : Collaborators Doc) (res : AzureResource Doc) :
    Except Failure (List (AzureResource Doc)) :=
  match populateResourceByPath c res ["properties.networkSecurityGroup.id"] with
  | .error err =>
    .error (.error ("populating nsg for " ++ fmtQ (c.IdString res.Id) ++ ": " ++ err))
  | .ok [nsg] =>
    match c.QueryId (c.IdString res.Id) "azurerm_network_interface" with
    | .error err =>
      .error (.error ("querying resource id for " ++ c.IdString res.Id ++ ": " ++ err))
    | .ok tfNicId =>
      match c.QueryId (c.IdString nsg.Id) "azurerm_network_security_group" with
      | .error err =>
        .error (.error ("querying resource id for " ++ c.IdString nsg.Id ++ ": " ++ err))
      | .ok tfNsgId =>
        match res.Id.Clone, nsg.Id with
        | .ScopedResourceId scope provider types names, .ScopedResourceId _ _ _ (nsgName :: _) =>
          .ok [
            { Id := .ScopedResourceId scope provider (types ++ ["networkSecurityGroups"])
                (names ++ [nsgName])
              PesudoResourceInfo := some
                { TFType := "azurerm_network_interface_security_group_association"
                  TFId := tfNicId ++ "|" ++ tfNsgId } }]
        | .ScopedResourceId _ _ _ _, .ScopedResourceId _ _ _ [] =>
          .error (.panic "index out of range")
        | _, _ => .error (.panic "interface conversion")
  | .ok _ => .ok []

/-- The loop over the backend address pools of one ip configuration. -/
def bapLoop (c : Collaborators Doc) (tfNicId : String) (ipConfig : AzureResource Doc) :
    List (AzureResource Doc) → Except Failure (List (AzureResource Doc))
  | [] => .ok []
  | bap :: rest =>
    match bap.Id.Parent with
    | none => .error (.panic "nil pointer dereference")
    | some parent =>
      match c.QueryId (c.IdString parent) "azurerm_application_gateway" with
      | .error err =>
        .error (.error ("querying resource id for " ++ c.IdString parent ++ ": " ++ err))
      | .ok tfAppGwId =>
        match ipConfig.Id.Clone, bap.Id.Names[1]?, ipConfig.Id.Names[1]? with
        | .ScopedResourceId scope provider types names, some bapName, some ipConfigName =>
          match bapLoop c tfNicId ipConfig rest with
          | .error f => .error f
          | .ok out => .ok (
            { Id := .ScopedResourceId scope provider (types ++ ["backendAddressPools"])
                (names ++ [bapName])
              PesudoResourceInfo := some
                { TFType :=
                    "azurerm_network_interface_application_gateway_backend_address_pool_association"
                  TFId := tfNicId ++ "/ipConfigurations/" ++ ipConfigName ++ "|" ++ tfAppGwId
                    ++ "/backendAddressPools/" ++ bapName } } :: out)
        | .ScopedResourceId _ _ _ _, _, _ => .error (.panic "index out of range")
        | _, _, _ => .error (.panic "interface conversion")

/-- The loop over the ip configurations, `i` the index of the first one. -/
def ipConfigLoop (c : Collaborators Doc) (res : AzureResource Doc) (tfNicId : String) :
    Nat → List (AzureResource Doc) → Except Failure (List (AzureResource Doc))
  | _, [] => .ok []
  | i, ipConfig :: rest =>
    match populateResourceByPath c res
        ["properties.ipConfigurations." ++ fmtD i
          ++ ".properties.applicationGatewayBackendAddressPools.#.id"] with
    | .error err =>
      .error (.error ("populating application gateway backend address pool for the ip config "
        ++ fmtQ (c.IdString ipConfig.Id) ++ " of " ++ fmtQ (c.IdString res.Id) ++ ": " ++ err))
    | .ok baps =>
      match bapLoop c tfNicId ipConfig baps with
      | .error f => .error f
      | .ok out =>
        match ipConfigLoop c res tfNicId (i + 1) rest with
        | .error f => .error f
        | .ok more => .ok (out ++ more)

/-- The function
`networkInterfacePopulateApplicationGatewayBackendAddressPoolAssociation`. -/
def networkInterfacePopulateApplicationGatewayBackendAddressPoolAssociation
    (c : Collaborators Doc) (res : AzureResource Doc) :
    Except Failure (List (AzureResource Doc)) :=
  match c.QueryId (c.IdString res.Id) "azurerm_network_interface" with
  | .error err =>
    .error (.error ("querying resource id for " ++ c.IdString res.Id ++ ": " ++ err))
  | .ok tfNicId =>
    match populateResourceByPath c res ["properties.ipConfigurations.#.id"] with
    | .error err =>
      .error (.error ("populating ip configs for " ++ fmtQ (c.IdString res.Id) ++ ": " ++ err))
    | .ok ipConfigs => ipConfigLoop c res tfNicId 0 ipConfigs

/-- Body of the loop of `populateForNetworkInterfaces` for one resource of
the snapshot, on the current set `acc`. -/
def nicStep (c : Collaborators Doc) (acc : List (AzureResource Doc)) (res : AzureResource Doc) :
    List (AzureResource Doc) × Option Failure :=
  if ToUpper res.Id.RouteScopeString != "/MICROSOFT.NETWORK/NETWORKINTERFACES" then
    (acc, none)
  else
    match networkInterfacePopulateNSGAssociation c res with
    | .error f => (acc, some (f.wrap "populating for NIC NSG association: "))
    | .ok nsgAssociations =>
      match networkInterfacePopulateApplicationGatewayBackendAddressPoolAssociation c res with
      | .error f =>
        (acc ++ nsgAssociations, some (f.wrap "populating for NIC App Gw BAP association: "))
      | .ok bapAssociations => (acc ++ nsgAssociations ++ bapAssociations, none)

/-- Method `populateForNetworkInterfaces`. -/
def populateForNetworkInterfaces (c : Collaborators Doc) (Resources : List (AzureResource Doc)) :
    List (AzureResource Doc) × Option Failure :=
  rangeLoop (nicStep c) Resources Resources

/-- Method `PopulateResource`: the new `rset.Resources` and the failure, if
any. -/
def PopulateResource (c : Collaborators Doc) (Resources : List (AzureResource Doc)) :
    List (AzureResource Doc) × Option Failure :=
  match populateForVirtualMachine c Resources with
  | (r1, some f) => (r1, some f)
  | (r1, none) => populateForNetworkInterfaces c r1

/-- The first test at the head of the loop of `reduceForKeyVaultCertificate`:
the resource is a key of a vault. -/
def isVaultKey (res : AzureResource Doc) : Bool :=
  EqualFold res.Id.RouteScopeString "/Microsoft.KeyVault/vaults/keys"

/-- The second test at the head of the loop: the resource is a secret of a
vault. -/
def isVaultSecret (res : AzureResource Doc) : Bool :=
  EqualFold res.Id.RouteScopeString "/Microsoft.KeyVault/vaults/secrets"

/-- The condition at the head of the loop negated: the resource is one of the
two halves of a certificate. -/
def isCertificateHalf (res : AzureResource Doc) : Bool :=
  isVaultKey res || isVaultSecret res

/-- The loop of `reduceForKeyVaultCertificate`.  The map `pending` is an
association list with at most one entry per key; the result is the pair of
`newResoruces` and `pending` when the loop ends. -/
def reduceLoop :
    List (AzureResource Doc) → List (AzureResource Doc) → List (String × AzureResource Doc) →
      Except Failure (List (AzureResource Doc) × List (String × AzureResource Doc))
  | [], newResoruces, pending => .ok (newResoruces, pending)
  | res :: rest, newResoruces, pending =>
    if !EqualFold res.Id.RouteScopeString "/Microsoft.KeyVault/vaults/keys"
        && !EqualFold res.Id.RouteScopeString "/Microsoft.KeyVault/vaults/secrets" then
      reduceLoop rest (newResoruces ++ [res]) pending
    else
      match res.Id.Names.getLast? with
      | none => .error (.panic "index out of range")
      | some certName =>
        if (pending.lookup certName).isNone then
          reduceLoop rest newResoruces (pending ++ [(certName, res)])
        else
          match res.Id.Clone with
          | .ScopedResourceId scope provider types names =>
            if types.length = 0 then .error (.panic "index out of range")
            else
              reduceLoop rest
                (newResoruces ++ [
                  { Id := .ScopedResourceId scope provider
                      (types.set (types.length - 1) "certificates") names }])
                (pending.filter fun kv => kv.1 != certName)
          | _ => .error (.panic "interface conversion")

/-- Method `reduceForKeyVaultCertificate`: the new `rset.Resources` and the
failure, if any (the method itself returns `nil`).  `mapOrder` is the order
in which the final `range` visits the entries of the map `pending`, which Go
leaves unspecified. -/
def reduceForKeyVaultCertificate
    (mapOrder : List (String × AzureResource Doc) → List (String × AzureResource Doc))
    (Resources : List (AzureResource Doc)) : List (AzureResource Doc) × Option Failure :=
  match reduceLoop Resources [] [] with
  | .error f => (Resources, some f)
  | .ok (newResoruces, pending) => (newResoruces ++ (mapOrder pending).map Prod.snd, none)

/-- Method `ReduceResource`. -/
def ReduceResource
    (mapOrder : List (String × AzureResource Doc) → List (String × AzureResource Doc))
    (Resources : List (AzureResource Doc)) : List (AzureResource Doc) × Option Failure :=
  match reduceForKeyVaultCertificate mapOrder Resources with
  | (r, some f) => (r, some f)
  | (r, none) => (r, none)

end resourceset

/-! ### Sample resource sets -/

/-- The segments `/type/name` of a scoped id, in turn. -/
def sampleSegments : List String → List String → String
  | t :: ts, n :: ns => "/" ++ t ++ "/" ++ n ++ sampleSegments ts ns
  | _, _ => ""

/-- A rendering of ids for the samples, in the shape of ARM resource ids. -/
def sampleIdString : armid.ResourceId → String
  | .TenantId => "/"
  | .SubscriptionId id => "/subscriptions/" ++ id
  | .ResourceGroup sub name => "/subscriptions/" ++ sub ++ "/resourceGroups/" ++ name
  | .ManagementGroup name => "/providers/Microsoft.Management/managementGroups/" ++ name
  | .ScopedResourceId scope provider types names =>
    (if scope = .TenantId then "" else sampleIdString scope)
      ++ "/providers/" ++ provider ++ sampleSegments types names

namespace resourceset

/-- A vault `kv` in resource group `rg` of subscription `sub`, and the id of
its child of type `ty` named `name`. -/
def sampleVaultChild (ty name : String) : armid.ResourceId :=
  .ScopedResourceId (.ResourceGroup "sub" "rg") "Microsoft.KeyVault" ["vaults", ty] ["kv", name]

/-- A storage account, a resource of another type. -/
def sampleStorage : AzureResource Unit :=
  { Id := .ScopedResourceId (.ResourceGroup "sub" "rg") "Microsoft.Storage"
      ["storageAccounts"] ["sa"] }

/-- The key half of the certificate `cert1`. -/
def sampleKey : AzureResource Unit := { Id := sampleVaultChild "keys" "cert1" }

/-- The secret half of the certificate `cert1`. -/
def sampleSecret : AzureResource Unit := { Id := sampleVaultChild "secrets" "cert1" }

/-- A virtual machine whose properties are the document `"vm-body"`. -/
def sampleVM : AzureResource String :=
  { Id := .ScopedResourceId (.ResourceGroup "sub" "rg") "Microsoft.Compute"
      ["virtualMachines"] ["vm1"]
    Properties := some "vm-body" }

/-- The id of the managed disk `disk1`. -/
def sampleDiskId : armid.ResourceId :=
  .ScopedResourceId (.ResourceGroup "sub" "rg") "Microsoft.Compute" ["disks"] ["disk1"]

/-- The managed disk `disk1` as `populateResourceByPath` returns it. -/
def sampleDisk : AzureResource String := { Id := sampleDiskId }

/-- The attachment of `disk1` to the virtual machine `vm1`. -/
def sampleAttachment : AzureResource String :=
  { Id := .ScopedResourceId (.ResourceGroup "sub" "rg") "Microsoft.Compute"
      ["virtualMachines", "dataDisks"] ["vm1", "disk1"]
    PesudoResourceInfo := some
      { TFType := "azurerm_virtual_machine_data_disk_attachment"
        TFId := "/subscriptions/sub/resourceGroups/rg/providers/Microsoft.Compute"
          ++ "/virtualMachines/vm1/dataDisks/disk1" } }

/-- Sample collaborators: the document `"vm-body"` references the managed disk
`disk1` under the data-disk path and nothing else, absent properties marshal
to `null` and print as `map[]`, the only id that parses is the one of `disk1`,
and a query answers with the raw id. -/
def sampleCollaborators : Collaborators String where
  ParseResourceId := fun s =>
    if s = "/subscriptions/sub/resourceGroups/rg/providers/Microsoft.Compute/disks/disk1" then
      .ok sampleDiskId
    else .error "invalid resource id"
  IdString := sampleIdString
  QueryId := fun id _ => .ok id
  Marshal := fun p => .ok (p.getD "null")
  FormatProperties := fun p => p.getD "map[]"
  GetBytes := fun b path =>
    if b = "vm-body" && path = "properties.storageProfile.dataDisks.#.managedDisk.id" then
      some ["/subscriptions/sub/resourceGroups/rg/providers/Microsoft.Compute/disks/disk1"]
    else none

/-- Sample collaborators as `sampleCollaborators`, except that every target-id
query fails. -/
def sampleFailingQuery : Collaborators String :=
  { sampleCollaborators with QueryId := fun _ _ => .error "not found" }

/-- The key `cert1` of another vault, `kv2`. -/
def sampleKeyOtherVault : AzureResource Unit :=
  { Id := .ScopedResourceId (.ResourceGroup "sub" "rg") "Microsoft.KeyVault"
      ["vaults", "keys"] ["kv2", "cert1"] }

/-- The secret `cert1` of another vault, `kv2`. -/
def sampleSecretOtherVault : AzureResource Unit :=
  { Id := .ScopedResourceId (.ResourceGroup "sub" "rg") "Microsoft.KeyVault"
      ["vaults", "secrets"] ["kv2", "cert1"] }

end resourceset

/-! ## Package `pkg/meta` -/

namespace pkgmeta

/-- Modelled from the spec: the struct `config.Config`, declared outside the
listed sources: "platform selector, provider-name selector, scope descriptor
(one of: explicit id list + optional single name/explicit type,
resource-group name, search predicate, mapping-file path)", "naming
prefix/suffix", under the field names that `NewMeta` and `NewMetaResource`
read. -/
structure Config where
  Platform : String
  ProviderName : String
  ResourceGroupName : String
  ARGPredicate : String
  MappingFile : String
  ResourceIds : List String
  TFResourceType : String
  TFResourceName : String := ""
  ResourceNamePattern : String := ""
  deriving DecidableEq, Repr

/-- Modelled from the spec: the constants of package `config`, declared
outside the listed sources, with the values that the tests of the command
line use for the platform and provider flags. -/
def PlatformARM : String := "arm"

/-- Modelled from the spec: see `PlatformARM`. -/
def PlatformMSGraph : String := "msgraph"

/-- Modelled from the spec: see `PlatformARM`. -/
def ProviderTypeAzureRM : String := "azurerm"

/-- Modelled from the spec: see `PlatformARM`. -/
def ProviderTypeAzapi : String := "azapi"

/-- Modelled from the spec: see `PlatformARM`. -/
def ProviderTypeAzureAD : String := "azuread"

/-- The four strategy constructors of package `internal/meta` that `NewMeta`
returns the result of; `Meta` is the interface `Meta`. -/
structure Constructors (Meta : Type) where
  NewMetaResourceGroup : Config → Except String Meta
  NewMetaQuery : Config → Except String Meta
  NewMetaMap : Config → Except String Meta
  NewMetaResource : Config → Except String Meta

/-- The first `switch` of `NewMeta`, on `cfg.Platform`: the error it returns,
`none` when it falls through. -/
def checkProvider (cfg : Config) : Option String :=
  if cfg.Platform == PlatformARM then
    if !([ProviderTypeAzureRM, ProviderTypeAzapi].contains cfg.ProviderName) then
      some ("provider name expect to be one of " ++ fmtQ ProviderTypeAzureRM ++ " or "
        ++ fmtQ ProviderTypeAzapi)
    else none
  else if cfg.Platform == PlatformMSGraph then
    if !([ProviderTypeAzureAD].contains cfg.ProviderName) then
      some ("provider name expect to be " ++ fmtQ ProviderTypeAzureAD)
    else none
  else
    some ("invalid platform: " ++ cfg.Platform)

/-- The function `NewMeta`. -/
def NewMeta {Meta : Type} (k : Constructors Meta) (cfg : Config) : Except String Meta :=
  if cfg.Platform == "" then
    .error "platform not defined"
  else
    match checkProvider cfg with
    | some err => .error err
    | none =>
      if cfg.ResourceGroupName != "" then
        if cfg.Platform != PlatformARM then
          .error "resource group name can only be specified for platform \"arm\""
        else k.NewMetaResourceGroup cfg
      else if cfg.ARGPredicate != "" then
        if cfg.Platform != PlatformARM then
          .error "ARG predicate can only be specified for platform \"arm\""
        else k.NewMetaQuery cfg
      else if cfg.MappingFile != "" then
        k.NewMetaMap cfg
      else if cfg.ResourceIds.length != 0 then
        if cfg.Platform != PlatformARM && cfg.TFResourceType == "" then
          .error "TF resource type must be specified for platform other than \"arm\""
        else k.NewMetaResource cfg
      else
        .error "invalid group config"

/-- Sample constructors: each succeeds and answers with the name of its
strategy. -/
def sampleConstructors : Constructors String where
  NewMetaResourceGroup := fun _ => .ok "resource-group"
  NewMetaQuery := fun _ => .ok "query"
  NewMetaMap := fun _ => .ok "mapping-file"
  NewMetaResource := fun _ => .ok "resource"

/-- A directory configuration with a mapping file only. -/
def sampleMsGraphMap : Config where
  Platform := "msgraph"
  ProviderName := "azuread"
  ResourceGroupName := ""
  ARGPredicate := ""
  MappingFile := "mapping.json"
  ResourceIds := []
  TFResourceType := ""

/-- A valid `arm` configuration that supplies two scope descriptors, a
resource-group name and a mapping file. -/
def sampleTwoScopes : Config where
  Platform := "arm"
  ProviderName := "azurerm"
  ResourceGroupName := "rg"
  ARGPredicate := ""
  MappingFile := "mapping.json"
  ResourceIds := []
  TFResourceType := ""

end pkgmeta

/-! ## Decimal strings -/

/-- Value of a list of decimal digit characters, most significant first. -/
def decimalValue (cs : List Char) : Nat :=
  cs.foldl (fun acc ch => 10 * acc + (ch.toNat - 48)) 0

/-! ## `NewMetaResource` -/

namespace meta

/-- Modelled from the spec: the struct `baseMeta`, declared outside the listed
sources; of its fields the model keeps `providerName`, the "provider-name
selector" that `ListResource` switches on. -/
structure baseMeta where
  providerName : String
  deriving DecidableEq, Repr

/-- The function `NewMetaResource`.  `NewBaseMeta` and `resourceNamePattern`
are declared outside the listed sources and are parameters; `NewBaseMeta` is
given the configuration, of which it reads the part `CommonConfig`. -/
def NewMetaResource (NewBaseMeta : pkgmeta.Config → Except String baseMeta)
    (resourceNamePattern : String → String × String) (cfg : pkgmeta.Config) :
    Except String MetaResource :=
  match NewBaseMeta cfg with
  | .error err => .error err
  | .ok base =>
    .ok { providerName := base.providerName
          ResourceIds := cfg.ResourceIds
          ResourceName := cfg.TFResourceName
          ResourceType := cfg.TFResourceType
          resourceNamePrefix := (resourceNamePattern cfg.ResourceNamePattern).1
          resourceNameSuffix := (resourceNamePattern cfg.ResourceNamePattern).2 }

end meta

namespace pkgmeta

/-- The constructors that `NewMeta` calls, with `NewMetaResource` the function
of `meta_res.go`.  The other three strategies are outside the listed sources
and are not a `MetaResource`: each is represented by a constructor that
returns `none`. -/
def resourceConstructors (NewBaseMeta : Config → Except String meta.baseMeta)
    (resourceNamePattern : String → String × String) :
    Constructors (Option meta.MetaResource) where
  NewMetaResourceGroup := fun _ => .ok none
  NewMetaQuery := fun _ => .ok none
  NewMetaMap := fun _ => .ok none
  NewMetaResource := fun cfg =>
    match meta.NewMetaResource NewBaseMeta resourceNamePattern cfg with
    | .error err => .error err
    | .ok m => .ok (some m)

/-- A base meta for the samples: it carries the provider name of the
configuration. -/
def sampleBaseMeta (cfg : Config) : Except String meta.baseMeta :=
  .ok { providerName := cfg.ProviderName }

/-- A name pattern for the samples: prefix `res-`, no suffix. -/
def samplePattern (_ : String) : String × String := ("res-", "")

/-- A directory configuration with two explicit ids and the target type
`azuread_group`. -/
def sampleDirectoryIds : Config where
  Platform := "msgraph"
  ProviderName := "azuread"
  ResourceGroupName := ""
  ARGPredicate := ""
  MappingFile := ""
  ResourceIds := ["/groups/a", "/groups/b"]
  TFResourceType := "azuread_group"

/-- An `arm` configuration with one explicit id and no override type. -/
def sampleArmIds : Config where
  Platform := "arm"
  ProviderName := "azurerm"
  ResourceGroupName := ""
  ARGPredicate := ""
  MappingFile := ""
  ResourceIds := ["/subscriptions/sub/resourceGroups/rg1"]
  TFResourceType := ""

end pkgmeta

/-! ## Sample inputs -/

namespace meta

/-- Sample collaborators: the ids of the resource groups `rg1` and `rg2`
parse, the mappers keep the raw id and give the type `azapi_resource` or
`azurerm_resource_group`, and a query answers with the raw id followed by the
requested type. -/
def sampleCollaborators : Collaborators where
  ParseResourceId := fun s =>
    if s = "/subscriptions/sub/resourceGroups/rg1" then .ok (.ResourceGroup "sub" "rg1")
    else if s = "/subscriptions/sub/resourceGroups/rg2" then .ok (.ResourceGroup "sub" "rg2")
    else .error "invalid resource id"
  IdString := sampleIdString
  ToTFAzAPIResources := fun rs => rs.map fun r =>
    { AzureId := r.Id, TFId := sampleIdString r.Id, TFType := "azapi_resource" }
  ToTFAzureRMResources := fun rs => rs.map fun r =>
    { AzureId := r.Id, TFId := sampleIdString r.Id, TFType := "azurerm_resource_group" }
  QueryId := fun id ty => .ok (id ++ "|" ++ ty)

/-- Three directory objects, no explicit name, pattern `res-<index>x`. -/
def sampleUnnamed : MetaResource where
  providerName := "azuread"
  ResourceIds := ["/groups/a", "/groups/b", "/groups/c"]
  ResourceName := ""
  ResourceType := "azuread_group"
  resourceNamePrefix := "res-"
  resourceNameSuffix := "x"

/-- One resource group with the explicit name `foo`. -/
def sampleNamed : MetaResource where
  providerName := "azurerm"
  ResourceIds := ["/subscriptions/sub/resourceGroups/rg1"]
  ResourceName := "foo"
  ResourceType := ""
  resourceNamePrefix := "res-"
  resourceNameSuffix := ""

/-- Two resource groups with an explicit override type. -/
def sampleOverride : MetaResource where
  providerName := "azurerm"
  ResourceIds :=
    ["/subscriptions/sub/resourceGroups/rg1", "/subscriptions/sub/resourceGroups/rg2"]
  ResourceName := "foo"
  ResourceType := "azurerm_foo"
  resourceNamePrefix := "res-"
  resourceNameSuffix := ""

end meta

/-! # Properties -/

/-! ## Decimal strings -/

theorem digitChar_toNat {k : Nat} (hk : k < 10) : (Nat.digitChar k).toNat - 48 = k := by
  interval_cases k <;> rfl

theorem toDigitsCore_decimal (fuel : Nat) :
    ∀ (n : Nat) (ds : List Char), n < fuel →
      ∃ pre, Nat.toDigitsCore 10 fuel n ds = pre ++ ds ∧ decimalValue pre = n := by
  induction fuel with
  | zero => intro n ds h; omega
  | succ fuel ih =>
    intro n ds h
    have hd : (Nat.digitChar (n % 10)).toNat - 48 = n % 10 :=
      digitChar_toNat (Nat.mod_lt _ (by decide))
    by_cases h0 : n / 10 = 0
    · refine ⟨[Nat.digitChar (n % 10)], ?_, ?_⟩
      · simp [Nat.toDigitsCore, h0]
      · simp only [decimalValue, List.foldl, hd]
        omega
    · obtain ⟨pre, hpre, hval⟩ := ih (n / 10) (Nat.digitChar (n % 10) :: ds) (by omega)
      refine ⟨pre ++ [Nat.digitChar (n % 10)], ?_, ?_⟩
      · simp [Nat.toDigitsCore, h0, hpre]
      · unfold decimalValue at hval ⊢
        rw [List.foldl_append, hval]
        simp only [List.foldl, hd]
        omega

theorem decimalValue_fmtD (n : Nat) : decimalValue (fmtD n).data = n := by
  obtain ⟨pre, hpre, hval⟩ := toDigitsCore_decimal (n + 1) n [] (Nat.lt_succ_self n)
  have : (fmtD n).data = pre := by
    show (Nat.repr n).data = pre
    simp [Nat.repr, Nat.toDigits, hpre, List.asString]
  rw [this, hval]

theorem fmtD_injective {i j : Nat} (h : fmtD i = fmtD j) : i = j := by
  have hi := decimalValue_fmtD i
  rw [h, decimalValue_fmtD] at hi
  exact hi.symm

theorem indexed_name_injective (p s : String) {i j : Nat}
    (h : p ++ fmtD i ++ s = p ++ fmtD j ++ s) : i = j := by
  have hd := congrArg String.data h
  simp only [String.data_append, List.append_assoc] at hd
  have h1 := List.append_cancel_right (List.append_cancel_left hd)
  exact fmtD_injective (String.ext h1)

/-! ## `ListResource`: shape of the returned list -/

namespace meta

open resourceset

theorem azureadLoop_length (m : MetaResource) :
    ∀ (ids : List String) (k : Nat), (azureadLoop m k ids).length = ids.length := by
  intro ids
  induction ids with
  | nil => intro k; rfl
  | cons id ids ih => intro k; simp [azureadLoop, ih]

theorem azureadLoop_getElem (m : MetaResource) :
    ∀ (ids : List String) (k i : Nat) (hi : i < (azureadLoop m k ids).length)
      (hj : i < ids.length),
      (azureadLoop m k ids)[i] = azureadItem m (k + i) ids[i] := by
  intro ids
  induction ids with
  | nil => intro k i hi hj; simp at hj
  | cons id ids ih =>
    intro k i hi hj
    cases i with
    | zero => simp [azureadLoop]
    | succ i =>
      simp only [azureadLoop, List.getElem_cons_succ]
      rw [ih (k + 1) i (by simpa [azureadLoop] using hi) (by simpa using hj)]
      congr 1
      omega

theorem armLoop_length (c : Collaborators) (m : MetaResource) (n : Nat) :
    ∀ (rl : List TFResource) (k : Nat) (l : ImportList),
      armLoop c m n k rl = .ok l → l.length = rl.length := by
  intro rl
  induction rl with
  | nil => intro k l h; simp [armLoop] at h; subst h; rfl
  | cons res rest ih =>
    intro k l h
    simp only [armLoop] at h
    split at h
    · cases h
    · split at h
      · cases h
      · rename_i l2 h2
        cases h
        simp [ih (k + 1) l2 h2]

theorem armLoop_getElem (c : Collaborators) (m : MetaResource) (n : Nat) :
    ∀ (rl : List TFResource) (k : Nat) (l : ImportList),
      armLoop c m n k rl = .ok l →
      ∀ (i : Nat) (hi : i < l.length) (hj : i < rl.length),
        armItem c m n (k + i) rl[i] = .ok l[i] := by
  intro rl
  induction rl with
  | nil => intro k l _ i _ hj; simp at hj
  | cons res rest ih =>
    intro k l h i hi hj
    simp only [armLoop] at h
    split at h
    · cases h
    · rename_i item hitem
      split at h
      · cases h
      · rename_i l2 h2
        cases h
        cases i with
        | zero => simpa using hitem
        | succ i =>
          simp only [List.getElem_cons_succ]
          have := ih (k + 1) l2 h2 i (by simpa using hi) (by simpa using hj)
          rw [← this]
          congr 1
          omega

theorem armItem_name (c : Collaborators) (m : MetaResource) (n i : Nat) (res : TFResource)
    (item : ImportItem) (h : armItem c m n i res = .ok item) :
    item.TFAddr.Name = m.tfResourceName i (n == 1) := by
  unfold armItem at h
  simp only at h
  split at h
  · split at h
    · cases h
    · cases h; rfl
  · cases h; rfl

theorem armItem_cache (c : Collaborators) (m : MetaResource) (n i : Nat) (res : TFResource)
    (item : ImportItem) (h : armItem c m n i res = .ok item) :
    item.TFAddrCache = item.TFAddr := by
  unfold armItem at h
  simp only at h
  split at h
  · split at h
    · cases h
    · cases h; rfl
  · cases h; rfl

/-- The returned list has one item per element of the batch. -/
theorem ListResource_length (c : Collaborators) (m : MetaResource) (l : ImportList)
    (h : m.ListResource c = .ok l) : l.length = batchLength c m := by
  unfold MetaResource.ListResource at h
  unfold batchLength
  split at h
  · rename_i hp
    cases h
    simp [hp, azureadLoop_length]
  · rename_i hp
    simp only [hp]
    split at h
    · split at h
      · cases h
      · rename_i resources hparse
        simp only [Bool.false_eq_true, if_false]
        exact armLoop_length c m _ _ 0 l h
    · cases h

/-- Every returned item is named by `tfResourceName` at its position, with
`single` the test that the batch has one element. -/
theorem ListResource_name (c : Collaborators) (m : MetaResource) (l : ImportList)
    (h : m.ListResource c = .ok l) (i : Nat) (hi : i < l.length) :
    l[i].TFAddr.Name = m.tfResourceName i (l.length == 1) := by
  have hlen := ListResource_length c m l h
  unfold MetaResource.ListResource at h
  unfold batchLength at hlen
  split at h
  · rename_i hp
    simp only [hp, if_true] at hlen
    cases h
    rw [azureadLoop_getElem m m.ResourceIds 0 i hi (by omega)]
    simp [azureadItem, azureadLoop_length]
  · rename_i hp
    simp only [hp] at hlen
    split at h
    · split at h
      · cases h
      · rename_i resources hparse
        simp only [hparse, Bool.false_eq_true, if_false] at hlen
        have hitem := armLoop_getElem c m _ _ 0 l h i hi (by simpa [hlen] using hi)
        have := armItem_name c m _ _ _ _ hitem
        simpa [hlen] using this
    · cases h

end meta

/-! ## `ListResource`: naming -/

namespace meta

open resourceset

theorem tfResourceName_indexed (m : MetaResource) (i : Nat) (single : Bool)
    (h : m.ResourceName = "" ∨ single = false) :
    m.tfResourceName i single = m.resourceNamePrefix ++ fmtD i ++ m.resourceNameSuffix := by
  unfold MetaResource.tfResourceName
  rcases h with h | h <;> simp [h]

theorem azureadLoop_ids (m : MetaResource) :
    ∀ (ids : List String) (k : Nat),
      (azureadLoop m k ids).map (fun x => x.TFResourceId) = ids := by
  intro ids
  induction ids with
  | nil => intro k; rfl
  | cons id ids ih => intro k; simp [azureadLoop, ih, azureadItem]

/-- C1. Indexed naming: when no explicit name applies (the name is empty or
the batch does not have exactly one element) the list returned by
`ListResource` has one item per batch element and the item at position `i` is
named prefix, decimal `i`, suffix, in input order; with an empty name
`tfResourceName i true` equals `tfResourceName i false`, and a single unnamed
resource is named prefix, `0`, suffix. -/
theorem C1_indexed_naming (c : Collaborators) (m : MetaResource) (l : ImportList)
    (h : m.ListResource c = .ok l)
    (hname : m.ResourceName = "" ∨ batchLength c m ≠ 1) :
    l.length = batchLength c m
    ∧ (∀ (i : Nat) (hi : i < l.length),
        l[i].TFAddr.Name = m.resourceNamePrefix ++ fmtD i ++ m.resourceNameSuffix)
    ∧ (m.providerName = "azuread" → l.map (fun x => x.TFResourceId) = m.ResourceIds)
    ∧ (∀ (m2 : MetaResource) (i : Nat), m2.ResourceName = "" →
        m2.tfResourceName i true = m2.tfResourceName i false)
    ∧ (batchLength c m = 1 →
        ∃ x, l = [x] ∧ x.TFAddr.Name = m.resourceNamePrefix ++ "0" ++ m.resourceNameSuffix) := by
  have hlen := ListResource_length c m l h
  have hidx : ∀ (i : Nat) (hi : i < l.length),
      l[i].TFAddr.Name = m.resourceNamePrefix ++ fmtD i ++ m.resourceNameSuffix := by
    intro i hi
    rw [ListResource_name c m l h i hi]
    apply tfResourceName_indexed
    rcases hname with hn | hn
    · exact Or.inl hn
    · right
      rw [hlen]
      simpa using hn
  refine ⟨hlen, hidx, ?_, ?_, ?_⟩
  · intro hp
    unfold MetaResource.ListResource at h
    simp only [hp, beq_self_eq_true, if_true] at h
    cases h
    exact azureadLoop_ids m _ 0
  · intro m2 i h2
    simp [MetaResource.tfResourceName, h2]
  · intro h1
    rw [← hlen] at h1
    match l, h1, hidx with
    | [x], _, hidx => exact ⟨x, rfl, hidx 0 (by simp)⟩

/-- C1 at three unnamed directory objects: the names are `res-0x`, `res-1x`,
`res-2x`. -/
theorem C1_indexed_naming_witness :
    sampleUnnamed.ListResource sampleCollaborators
        = .ok (azureadLoop sampleUnnamed 0 sampleUnnamed.ResourceIds)
    ∧ (azureadLoop sampleUnnamed 0 sampleUnnamed.ResourceIds).map (fun x => x.TFAddr.Name)
        = ["res-0x", "res-1x", "res-2x"]
    ∧ ∀ (i : Nat) (hi : i < (azureadLoop sampleUnnamed 0 sampleUnnamed.ResourceIds).length),
        (azureadLoop sampleUnnamed 0 sampleUnnamed.ResourceIds)[i].TFAddr.Name
          = "res-" ++ fmtD i ++ "x" :=
  ⟨rfl, by decide,
    (C1_indexed_naming sampleCollaborators sampleUnnamed
      (azureadLoop sampleUnnamed 0 sampleUnnamed.ResourceIds) rfl (Or.inl rfl)).2.1⟩

theorem azureadLoop_rename (m : MetaResource) (s : String)
    (hn : m.ResourceIds.length ≠ 1) :
    ∀ (ids : List String) (k : Nat),
      azureadLoop { m with ResourceName := s } k ids = azureadLoop m k ids := by
  intro ids
  induction ids with
  | nil => intro k; rfl
  | cons id ids ih =>
    intro k
    simp [azureadLoop, ih, azureadItem, MetaResource.tfResourceName, hn]

theorem armItem_rename (c : Collaborators) (m : MetaResource) (s : String) (n i : Nat)
    (res : TFResource) (hn : n ≠ 1) :
    armItem c { m with ResourceName := s } n i res = armItem c m n i res := by
  simp [armItem, MetaResource.tfResourceName, hn]

theorem armLoop_rename (c : Collaborators) (m : MetaResource) (s : String) (n : Nat)
    (hn : n ≠ 1) :
    ∀ (rl : List TFResource) (k : Nat),
      armLoop c { m with ResourceName := s } n k rl = armLoop c m n k rl := by
  intro rl
  induction rl with
  | nil => intro k; rfl
  | cons res rest ih =>
    intro k
    simp only [armLoop, armItem_rename c m s n k res hn, ih]

/-- When the batch does not have exactly one element, `ListResource` does not
read `ResourceName`. -/
theorem ListResource_rename (c : Collaborators) (m : MetaResource) (s : String)
    (hn : batchLength c m ≠ 1) :
    MetaResource.ListResource c { m with ResourceName := s } = m.ListResource c := by
  unfold batchLength at hn
  unfold MetaResource.ListResource
  by_cases hp : (m.providerName == "azuread") = true
  · simp only [hp, if_true] at hn ⊢
    rw [azureadLoop_rename m s hn]
  · simp only [hp, if_false] at hn ⊢
    cases hparse : parseLoop c m.ResourceIds with
    | error e => rfl
    | ok resources =>
      simp only [hparse, Bool.false_eq_true, if_false] at hn
      have hmap : mapResources c { m with ResourceName := s } resources
          = mapResources c m resources := rfl
      simp only [hmap]
      rw [armLoop_rename c m s _ hn]
      simp

/-- C2. Explicit single name: with a non-empty `ResourceName` and a batch of
exactly one resource, the single returned item is named exactly
`ResourceName`; with a batch of more than one resource every item carries its
indexed name and the returned list is the same whatever `ResourceName` is. -/
theorem C2_explicit_single_name (c : Collaborators) (m : MetaResource) (l : ImportList)
    (h : m.ListResource c = .ok l) (hs : m.ResourceName ≠ "") :
    (batchLength c m = 1 → ∃ x, l = [x] ∧ x.TFAddr.Name = m.ResourceName)
    ∧ (1 < batchLength c m →
        (∀ (i : Nat) (hi : i < l.length),
          l[i].TFAddr.Name = m.resourceNamePrefix ++ fmtD i ++ m.resourceNameSuffix)
        ∧ ∀ s : String, MetaResource.ListResource c { m with ResourceName := s } = .ok l) := by
  have hlen := ListResource_length c m l h
  constructor
  · intro h1
    rw [← hlen] at h1
    have hname := ListResource_name c m l h
    match l, h1, hname with
    | [x], _, hname =>
      refine ⟨x, rfl, ?_⟩
      have := hname 0 (by simp)
      simpa [MetaResource.tfResourceName, hs] using this
  · intro h1
    constructor
    · intro i hi
      rw [ListResource_name c m l h i hi]
      apply tfResourceName_indexed
      right
      rw [hlen]
      simp only [beq_eq_false_iff_ne, ne_eq]
      omega
    · intro s
      rw [ListResource_rename c m s (by omega), h]

/-- C2 at one resource group named `foo`: the single item is named `foo`. -/
theorem C2_explicit_single_name_witness :
    sampleNamed.ResourceName ≠ "" ∧ batchLength sampleCollaborators sampleNamed = 1
    ∧ ∃ l x, sampleNamed.ListResource sampleCollaborators = .ok l ∧ l = [x]
        ∧ x.TFAddr.Name = "foo" :=
  ⟨by decide, by decide,
    match (C2_explicit_single_name sampleCollaborators sampleNamed _ rfl (by decide)).1
      (by decide) with
    | ⟨x, hl, hx⟩ => ⟨_, x, rfl, hl, hx⟩⟩

/-- C3. Address uniqueness: when `ListResource` succeeds, no two distinct
positions of the returned list carry the same pair of address type and
address name; for any prefix and suffix the indexed names of distinct indices
are distinct. -/
theorem C3_address_unique (c : Collaborators) (m : MetaResource) (l : ImportList)
    (h : m.ListResource c = .ok l) :
    (∀ (i j : Nat) (hi : i < l.length) (hj : j < l.length), i ≠ j →
        (l[i].TFAddr.Typ, l[i].TFAddr.Name) ≠ (l[j].TFAddr.Typ, l[j].TFAddr.Name))
    ∧ (∀ (p s : String) (i j : Nat), i ≠ j → p ++ fmtD i ++ s ≠ p ++ fmtD j ++ s) := by
  constructor
  · intro i j hi hj hij heq
    have hne : (l.length == 1) = false := by
      simp only [beq_eq_false_iff_ne, ne_eq]
      omega
    have hn := congrArg Prod.snd heq
    simp only at hn
    rw [ListResource_name c m l h i hi, ListResource_name c m l h j hj, hne,
      tfResourceName_indexed m i false (Or.inr rfl),
      tfResourceName_indexed m j false (Or.inr rfl)] at hn
    exact hij (indexed_name_injective _ _ hn)
  · intro p s i j hij heq
    exact hij (indexed_name_injective p s heq)

/-- C3 at three unnamed directory objects: positions 0 and 2 differ. -/
theorem C3_address_unique_witness :
    sampleUnnamed.ListResource sampleCollaborators
        = .ok (azureadLoop sampleUnnamed 0 sampleUnnamed.ResourceIds)
    ∧ ((azureadLoop sampleUnnamed 0 sampleUnnamed.ResourceIds)[0].TFAddr.Typ,
        (azureadLoop sampleUnnamed 0 sampleUnnamed.ResourceIds)[0].TFAddr.Name)
      ≠ ((azureadLoop sampleUnnamed 0 sampleUnnamed.ResourceIds)[2].TFAddr.Typ,
        (azureadLoop sampleUnnamed 0 sampleUnnamed.ResourceIds)[2].TFAddr.Name) :=
  ⟨rfl,
    (C3_address_unique sampleCollaborators sampleUnnamed
      (azureadLoop sampleUnnamed 0 sampleUnnamed.ResourceIds) rfl).1 0 2 (by decide) (by decide)
      (by decide)⟩

/-! ## `ListResource`: explicit type override -/

theorem armItem_override (c : Collaborators) (m : MetaResource) (n i : Nat) (res : TFResource)
    (item : ImportItem) (h : armItem c m n i res = .ok item) :
    (m.ResourceType ≠ "" ∧ m.ResourceType ≠ res.TFType →
        c.QueryId (c.IdString res.AzureId) m.ResourceType = .ok item.TFResourceId
        ∧ item.TFAddr.Typ = m.ResourceType ∧ item.TFAddrCache.Typ = m.ResourceType)
    ∧ (¬ (m.ResourceType ≠ "" ∧ m.ResourceType ≠ res.TFType) →
        item.TFResourceId = res.TFId
        ∧ item.TFAddr.Typ = res.TFType ∧ item.TFAddrCache.Typ = res.TFType) := by
  unfold armItem at h
  simp only at h
  by_cases hc : (m.ResourceType != "" && m.ResourceType != res.TFType) = true
  · have hc2 : m.ResourceType ≠ "" ∧ m.ResourceType ≠ res.TFType := by simpa using hc
    rw [if_pos hc] at h
    constructor
    · intro _
      cases hq : c.QueryId (c.IdString res.AzureId) m.ResourceType with
      | error e => rw [hq] at h; cases h
      | ok tfid => rw [hq] at h; cases h; exact ⟨rfl, rfl, rfl⟩
    · intro hno
      exact absurd hc2 hno
  · have hc2 : ¬ (m.ResourceType ≠ "" ∧ m.ResourceType ≠ res.TFType) := by simpa using hc
    rw [if_neg hc] at h
    cases h
    exact ⟨fun hyes => absurd hyes hc2, fun _ => ⟨rfl, rfl, rfl⟩⟩

/-- C10. Explicit type override in the `azurerm`/`azapi` path: the returned
list has one item per mapped resource; an item whose mapped resource has type
`T` and id `D` has, when the override type `R` is non-empty and differs from
`T`, the id that `QueryId` returns for the raw id and `R`, and `R` as the type
of both `TFAddr` and `TFAddrCache`; otherwise it keeps `D` and `T`.  Hence a
non-empty `R` is the address type of every item, and `TFAddrCache` equals
`TFAddr` for every item. -/
theorem C10_type_override (c : Collaborators) (m : MetaResource) (l : ImportList)
    (hp : m.providerName = "azurerm" ∨ m.providerName = "azapi")
    (h : m.ListResource c = .ok l) :
    ∃ resources, parseLoop c m.ResourceIds = .ok resources
      ∧ l.length = (mapResources c m resources).length
      ∧ ∀ (i : Nat) (hi : i < l.length) (hj : i < (mapResources c m resources).length),
          (m.ResourceType ≠ "" ∧ m.ResourceType ≠ (mapResources c m resources)[i].TFType →
            c.QueryId (c.IdString (mapResources c m resources)[i].AzureId) m.ResourceType
              = .ok l[i].TFResourceId
            ∧ l[i].TFAddr.Typ = m.ResourceType ∧ l[i].TFAddrCache.Typ = m.ResourceType)
          ∧ (¬ (m.ResourceType ≠ "" ∧ m.ResourceType ≠ (mapResources c m resources)[i].TFType) →
            l[i].TFResourceId = (mapResources c m resources)[i].TFId
            ∧ l[i].TFAddr.Typ = (mapResources c m resources)[i].TFType
            ∧ l[i].TFAddrCache.Typ = (mapResources c m resources)[i].TFType)
          ∧ (m.ResourceType ≠ "" → l[i].TFAddr.Typ = m.ResourceType)
          ∧ l[i].TFAddrCache = l[i].TFAddr := by
  have hne : (m.providerName == "azuread") = false := by
    rcases hp with hp | hp <;> simp [hp]
  unfold MetaResource.ListResource at h
  rw [hne] at h
  simp only [Bool.false_eq_true, if_false] at h
  split at h
  · cases hparse : parseLoop c m.ResourceIds with
    | error e => rw [hparse] at h; cases h
    | ok resources =>
      rw [hparse] at h
      simp only at h
      refine ⟨resources, rfl, armLoop_length c m _ _ 0 l h, ?_⟩
      intro i hi hj
      have hitem := armLoop_getElem c m _ _ 0 l h i hi hj
      rw [Nat.zero_add] at hitem
      have hov := armItem_override c m _ _ _ _ hitem
      refine ⟨hov.1, hov.2, ?_, armItem_cache c m _ _ _ _ hitem⟩
      intro hR
      by_cases hT : m.ResourceType = (mapResources c m resources)[i].TFType
      · rw [(hov.2 (fun hh => hh.2 hT)).2.1, ← hT]
      · exact (hov.1 ⟨hR, hT⟩).2.1
  · cases h

/-- C10 at two resource groups with the override type `azurerm_foo`: both
items carry the requeried id and the override type. -/
theorem C10_type_override_witness :
    (sampleOverride.providerName = "azurerm" ∨ sampleOverride.providerName = "azapi")
    ∧ ∃ l, sampleOverride.ListResource sampleCollaborators = .ok l
      ∧ l.map (fun x => (x.TFResourceId, x.TFAddr.Typ, x.TFAddrCache.Typ))
          = [("/subscriptions/sub/resourceGroups/rg1|azurerm_foo", "azurerm_foo", "azurerm_foo"),
             ("/subscriptions/sub/resourceGroups/rg2|azurerm_foo", "azurerm_foo", "azurerm_foo")]
      ∧ ∀ (i : Nat) (hi : i < l.length), l[i].TFAddrCache = l[i].TFAddr :=
  ⟨Or.inl rfl, _, rfl, by decide, fun i hi =>
    match C10_type_override sampleCollaborators sampleOverride _ (Or.inl rfl) rfl with
    | ⟨_, _, hlen, hall⟩ => (hall i hi (hlen ▸ hi)).2.2.2⟩

end meta

/-! ## `Equal` on identities -/

namespace resourceid

/-- The structural comparison of `armid` identifiers is symmetric. -/
theorem armid_Equal_comm (x y : armid.ResourceId) : x.Equal y = y.Equal x := by
  unfold armid.ResourceId.Equal
  rw [Bool.eq_iff_iff]
  simp only [decide_eq_true_eq]
  exact ⟨Eq.symm, Eq.symm⟩

/-- What `Equal` does where it does not panic.  Between two identities that
hold a struct the call returns, and `a.Equal(b)` is `b.Equal(a)`; between a
flat and a hierarchical identity it is false in both directions, whatever
pointers they hold; against the `nil` interface value and on a `nil` receiver
it is false; on flat identities that hold a struct it is true exactly when the
id strings are equal. -/
theorem Equal_on_structs :
    (∀ a b : AzureResourceId, a.holdsNil = false → b.holdsNil = false →
        ∃ r : Bool, a.Equal (some b) = some r ∧ b.Equal (some a) = some r)
    ∧ (∀ (x : Option ArmResourceId) (y : Option MsGraphResourceId),
        (AzureResourceId.msgraph y).Equal (some (.arm x)) = some false
        ∧ (AzureResourceId.arm x).Equal (some (.msgraph y)) = some false)
    ∧ (∀ a : AzureResourceId, a.Equal none = some false)
    ∧ (∀ b : Option AzureResourceId,
        (AzureResourceId.arm none).Equal b = some false
        ∧ (AzureResourceId.msgraph none).Equal b = some false)
    ∧ (∀ x y : MsGraphResourceId,
        (AzureResourceId.msgraph (some x)).Equal (some (.msgraph (some y))) = some true
          ↔ x.id = y.id) := by
  refine ⟨?_, ?_, ?_, ?_, ?_⟩
  · intro a b ha hb
    cases a with
    | arm x =>
      cases x with
      | none => cases ha
      | some x =>
        cases b with
        | arm y =>
          cases y with
          | none => cases hb
          | some y => exact ⟨x.id.Equal y.id, rfl, congrArg some (armid_Equal_comm y.id x.id)⟩
        | msgraph y =>
          cases y with
          | none => cases hb
          | some y => exact ⟨false, rfl, rfl⟩
    | msgraph x =>
      cases x with
      | none => cases ha
      | some x =>
        cases b with
        | arm y =>
          cases y with
          | none => cases hb
          | some y => exact ⟨false, rfl, rfl⟩
        | msgraph y =>
          cases y with
          | none => cases hb
          | some y =>
            refine ⟨x.id == y.id, rfl, ?_⟩
            simp only [AzureResourceId.Equal, MsGraphResourceId.Equal]
            congr 1
            rw [Bool.eq_iff_iff]
            simp only [beq_iff_eq]
            exact ⟨Eq.symm, Eq.symm⟩
  · intro x y
    cases x <;> cases y <;> exact ⟨rfl, rfl⟩
  · intro a
    cases a with
    | arm x => cases x <;> rfl
    | msgraph x => cases x <;> rfl
  · intro b
    exact ⟨rfl, rfl⟩
  · intro x y
    simp [AzureResourceId.Equal, MsGraphResourceId.Equal]

/-- C7 at the failing input.  A hierarchical identity compared with the
interface value that holds a `nil` `*ArmResourceId` panics (`none`), while
the same comparison in the other direction, on the `nil` receiver, is false;
likewise for the flat variant.  Against the `nil` interface value both
variants return false. -/
theorem C7_nil_pointer_argument :
    (NewArmResourceId (.ResourceGroup "sub" "rg")).Equal (some (.arm none)) = none
    ∧ (AzureResourceId.arm none).Equal (some (NewArmResourceId (.ResourceGroup "sub" "rg")))
        = some false
    ∧ (NewMsGraphResourceId "/groups/a").Equal (some (.msgraph none)) = none
    ∧ (AzureResourceId.msgraph none).Equal (some (NewMsGraphResourceId "/groups/a"))
        = some false
    ∧ (NewArmResourceId (.ResourceGroup "sub" "rg")).Equal none = some false
    ∧ (NewMsGraphResourceId "/groups/a").Equal none = some false := by
  decide

end resourceid

/-! ## `NewMeta` -/

namespace pkgmeta

/-- C8. Platform compatibility validation: `NewMeta` returns an error,
whatever the constructors are, when the provider name is not allowed for the
platform (`arm` accepts `azurerm` and `azapi`, `msgraph` accepts `azuread`)
and when platform `msgraph` comes with a resource-group name or a search
predicate; a `msgraph` configuration with provider `azuread` that supplies
only a mapping file is dispatched to `NewMetaMap`, one that supplies only
explicit ids and a target type to `NewMetaResource`. -/
theorem C8_platform_validation {Meta : Type} (cfg : Config) :
    ((cfg.Platform = PlatformARM ∧ cfg.ProviderName ≠ ProviderTypeAzureRM
          ∧ cfg.ProviderName ≠ ProviderTypeAzapi)
        ∨ (cfg.Platform = PlatformMSGraph ∧ cfg.ProviderName ≠ ProviderTypeAzureAD)
        ∨ (cfg.Platform = PlatformMSGraph
          ∧ (cfg.ResourceGroupName ≠ "" ∨ cfg.ARGPredicate ≠ "")) →
      ∃ e, ∀ k : Constructors Meta, NewMeta k cfg = .error e)
    ∧ (cfg.Platform = PlatformMSGraph → cfg.ProviderName = ProviderTypeAzureAD →
        cfg.ResourceGroupName = "" → cfg.ARGPredicate = "" →
        (cfg.MappingFile ≠ "" → cfg.ResourceIds = [] →
          ∀ k : Constructors Meta, NewMeta k cfg = k.NewMetaMap cfg)
        ∧ (cfg.MappingFile = "" → cfg.ResourceIds ≠ [] → cfg.TFResourceType ≠ "" →
          ∀ k : Constructors Meta, NewMeta k cfg = k.NewMetaResource cfg)) := by
  constructor
  · rintro (⟨hp, h1, h2⟩ | ⟨hp, h1⟩ | ⟨hp, h1⟩)
    · refine ⟨"provider name expect to be one of " ++ fmtQ ProviderTypeAzureRM ++ " or "
        ++ fmtQ ProviderTypeAzapi, fun k => ?_⟩
      simp only [NewMeta, checkProvider, hp, PlatformARM, PlatformMSGraph]
      simp [h1, h2]
    · refine ⟨"provider name expect to be " ++ fmtQ ProviderTypeAzureAD, fun k => ?_⟩
      simp only [NewMeta, checkProvider, hp, PlatformARM, PlatformMSGraph]
      simp [h1]
    · by_cases hv : cfg.ProviderName = ProviderTypeAzureAD
      · by_cases hrg : cfg.ResourceGroupName = ""
        · have harg : cfg.ARGPredicate ≠ "" := by
            rcases h1 with h1 | h1
            · exact absurd hrg h1
            · exact h1
          refine ⟨"ARG predicate can only be specified for platform \"arm\"", fun k => ?_⟩
          simp only [NewMeta, checkProvider, hp, hv, PlatformARM, PlatformMSGraph,
            ProviderTypeAzureAD]
          simp [hrg, harg]
        · refine ⟨"resource group name can only be specified for platform \"arm\"",
            fun k => ?_⟩
          simp only [NewMeta, checkProvider, hp, hv, PlatformARM, PlatformMSGraph,
            ProviderTypeAzureAD]
          simp [hrg]
      · refine ⟨"provider name expect to be " ++ fmtQ ProviderTypeAzureAD, fun k => ?_⟩
        simp only [NewMeta, checkProvider, hp, PlatformARM, PlatformMSGraph]
        simp [hv]
  · intro hp hv hrg harg
    constructor
    · intro hmf _ k
      simp only [NewMeta, checkProvider, hp, hv, PlatformARM, PlatformMSGraph,
        ProviderTypeAzureAD]
      simp [hrg, harg, hmf]
    · intro hmf hids hty k
      simp only [NewMeta, checkProvider, hp, hv, PlatformARM, PlatformMSGraph,
        ProviderTypeAzureAD]
      simp [hrg, harg, hmf, hty, hids]

/-- C8 at a directory configuration with a mapping file only: it is
dispatched to `NewMetaMap`. -/
theorem C8_platform_validation_witness :
    sampleMsGraphMap.Platform = PlatformMSGraph
    ∧ sampleMsGraphMap.ProviderName = ProviderTypeAzureAD
    ∧ NewMeta sampleConstructors sampleMsGraphMap = .ok "mapping-file" :=
  ⟨rfl, rfl,
    ((C8_platform_validation sampleMsGraphMap).2 rfl rfl rfl rfl).1 (by decide) rfl
      sampleConstructors⟩

/-- C9 as stated fails: a valid `arm` configuration that supplies both a
resource-group name and a mapping file is not rejected, `NewMeta` returns the
resource-group strategy. -/
theorem C9_counterexample :
    sampleTwoScopes.Platform = PlatformARM
    ∧ sampleTwoScopes.ProviderName = ProviderTypeAzureRM
    ∧ sampleTwoScopes.ResourceGroupName ≠ ""
    ∧ sampleTwoScopes.MappingFile ≠ ""
    ∧ NewMeta sampleConstructors sampleTwoScopes = .ok "resource-group" :=
  ⟨rfl, rfl, by decide, by decide, rfl⟩

/-- C9, amended. For a valid platform/provider pairing: with none of the four
scope descriptors `NewMeta` returns an error whatever the constructors are;
otherwise the first supplied descriptor in the order resource-group name,
search predicate, mapping file, explicit ids decides, whatever the later ones
are: the result is that strategy's constructor result, except that platform
`msgraph` with a resource-group name, with a search predicate, or with
explicit ids and no target type is an error. -/
theorem C9_scope_selection {Meta : Type} (cfg : Config)
    (hvalid : (cfg.Platform = PlatformARM
          ∧ (cfg.ProviderName = ProviderTypeAzureRM ∨ cfg.ProviderName = ProviderTypeAzapi))
        ∨ (cfg.Platform = PlatformMSGraph ∧ cfg.ProviderName = ProviderTypeAzureAD)) :
    (cfg.ResourceGroupName = "" → cfg.ARGPredicate = "" → cfg.MappingFile = "" →
        cfg.ResourceIds = [] →
        ∃ e, ∀ k : Constructors Meta, NewMeta k cfg = .error e)
    ∧ (cfg.ResourceGroupName ≠ "" →
        (cfg.Platform = PlatformARM →
          ∀ k : Constructors Meta, NewMeta k cfg = k.NewMetaResourceGroup cfg)
        ∧ (cfg.Platform = PlatformMSGraph →
          ∃ e, ∀ k : Constructors Meta, NewMeta k cfg = .error e))
    ∧ (cfg.ResourceGroupName = "" → cfg.ARGPredicate ≠ "" →
        (cfg.Platform = PlatformARM →
          ∀ k : Constructors Meta, NewMeta k cfg = k.NewMetaQuery cfg)
        ∧ (cfg.Platform = PlatformMSGraph →
          ∃ e, ∀ k : Constructors Meta, NewMeta k cfg = .error e))
    ∧ (cfg.ResourceGroupName = "" → cfg.ARGPredicate = "" → cfg.MappingFile ≠ "" →
        ∀ k : Constructors Meta, NewMeta k cfg = k.NewMetaMap cfg)
    ∧ (cfg.ResourceGroupName = "" → cfg.ARGPredicate = "" → cfg.MappingFile = "" →
        cfg.ResourceIds ≠ [] →
        (cfg.Platform = PlatformARM ∨ cfg.TFResourceType ≠ "" →
          ∀ k : Constructors Meta, NewMeta k cfg = k.NewMetaResource cfg)
        ∧ (cfg.Platform = PlatformMSGraph → cfg.TFResourceType = "" →
          ∃ e, ∀ k : Constructors Meta, NewMeta k cfg = .error e)) := by
  have hpre : ∀ k : Constructors Meta, NewMeta k cfg =
      if cfg.ResourceGroupName != "" then
        if cfg.Platform != PlatformARM then
          .error "resource group name can only be specified for platform \"arm\""
        else k.NewMetaResourceGroup cfg
      else if cfg.ARGPredicate != "" then
        if cfg.Platform != PlatformARM then
          .error "ARG predicate can only be specified for platform \"arm\""
        else k.NewMetaQuery cfg
      else if cfg.MappingFile != "" then
        k.NewMetaMap cfg
      else if cfg.ResourceIds.length != 0 then
        if cfg.Platform != PlatformARM && cfg.TFResourceType == "" then
          .error "TF resource type must be specified for platform other than \"arm\""
        else k.NewMetaResource cfg
      else
        .error "invalid group config" := by
    intro k
    rcases hvalid with ⟨hp, hv | hv⟩ | ⟨hp, hv⟩ <;>
      simp [NewMeta, checkProvider, hp, hv, PlatformARM, PlatformMSGraph,
        ProviderTypeAzureRM, ProviderTypeAzapi, ProviderTypeAzureAD]
  have hne : PlatformMSGraph ≠ PlatformARM := by decide
  refine ⟨?_, ?_, ?_, ?_, ?_⟩
  · intro h1 h2 h3 h4
    exact ⟨"invalid group config", fun k => by rw [hpre k]; simp [h1, h2, h3, h4]⟩
  · intro h1
    constructor
    · intro hp k
      rw [hpre k]; simp [h1, hp]
    · intro hp
      exact ⟨"resource group name can only be specified for platform \"arm\"",
        fun k => by rw [hpre k]; simp [h1, hp, hne]⟩
  · intro h1 h2
    constructor
    · intro hp k
      rw [hpre k]; simp [h1, h2, hp]
    · intro hp
      exact ⟨"ARG predicate can only be specified for platform \"arm\"",
        fun k => by rw [hpre k]; simp [h1, h2, hp, hne]⟩
  · intro h1 h2 h3 k
    rw [hpre k]; simp [h1, h2, h3]
  · intro h1 h2 h3 h4
    constructor
    · intro hp k
      rw [hpre k]
      rcases hp with hp | hp <;> simp [h1, h2, h3, h4, hp]
    · intro hp hty
      exact ⟨"TF resource type must be specified for platform other than \"arm\"",
        fun k => by rw [hpre k]; simp [h1, h2, h3, h4, hp, hty, hne]⟩

/-- C9, amended, at the configuration with two scope descriptors: the
resource-group name decides. -/
theorem C9_scope_selection_witness :
    ((sampleTwoScopes.Platform = PlatformARM
          ∧ (sampleTwoScopes.ProviderName = ProviderTypeAzureRM
            ∨ sampleTwoScopes.ProviderName = ProviderTypeAzapi))
        ∨ (sampleTwoScopes.Platform = PlatformMSGraph
          ∧ sampleTwoScopes.ProviderName = ProviderTypeAzureAD))
    ∧ NewMeta sampleConstructors sampleTwoScopes
        = sampleConstructors.NewMetaResourceGroup sampleTwoScopes :=
  ⟨Or.inl ⟨rfl, Or.inl rfl⟩,
    ((C9_scope_selection sampleTwoScopes (Or.inl ⟨rfl, Or.inl rfl⟩)).2.1 (by decide)).1 rfl
      sampleConstructors⟩

end pkgmeta

/-! ## Route scopes of synthesized ids -/

namespace resourceset

variable {Doc : Type}

/-- A mapped string that ends in `v` agrees with any equal list on its last
`n` characters. -/
theorem suffix_last (f : Char → Char) (n : Nat) (p v t : List Char) (hv : n ≤ v.length)
    (h : (p ++ v).map f = t) : ((v.map f).reverse).take n = (t.reverse).take n := by
  subst h
  rw [List.map_append, List.reverse_append, List.take_append_of_le_length]
  simpa using hv

theorem intercalate_go_snoc (sep : String) :
    ∀ (l : List String) (acc x : String),
      String.intercalate.go acc sep (l ++ [x]) = String.intercalate.go acc sep l ++ sep ++ x := by
  intro l
  induction l with
  | nil => intro acc x; simp [String.intercalate.go]
  | cons a l ih => intro acc x; simp [String.intercalate.go, ih]

/-- Joining segments that end with `x` gives a string that ends with `x`. -/
theorem intercalate_snoc (sep : String) (l : List String) (x : String) :
    ∃ pre : String, sep.intercalate (l ++ [x]) = pre ++ x := by
  cases l with
  | nil => exact ⟨"", by simp [String.intercalate, String.intercalate.go]⟩
  | cons a l =>
    refine ⟨String.intercalate.go a sep l ++ sep, ?_⟩
    simp [String.intercalate, intercalate_go_snoc]

/-- The route scope of a scoped id ends with its last type segment. -/
theorem routeScope_snoc (scope : armid.ResourceId) (provider : String) (types names : List String)
    (x : String) :
    ∃ pre : List Char,
      (armid.ResourceId.ScopedResourceId scope provider (types ++ [x]) names).RouteScopeString.data
        = pre ++ x.data := by
  obtain ⟨pre, hpre⟩ := intercalate_snoc "/" types x
  refine ⟨("/" ++ provider ++ "/" ++ pre).data, ?_⟩
  simp [armid.ResourceId.RouteScopeString, hpre, String.data_append]

theorem set_last_eq_dropLast (types : List String) (x : String) (h : types ≠ []) :
    types.set (types.length - 1) x = types.dropLast ++ [x] := by
  induction types with
  | nil => exact absurd rfl h
  | cons a l ih =>
    cases l with
    | nil => rfl
    | cons b l =>
      have := ih (by simp)
      simp only [List.length_cons, Nat.add_sub_cancel, List.set_cons_succ, List.dropLast_cons₂,
        List.cons_append] at this ⊢
      rw [this]

/-! ## `ReduceResource` -/

/-- A half of a certificate has a scoped id with at least one type segment. -/
theorem half_scoped (res : AzureResource Doc) (h : isCertificateHalf res = true) :
    ∃ scope provider types names,
      res.Id = .ScopedResourceId scope provider types names ∧ types ≠ [] := by
  unfold isCertificateHalf isVaultKey isVaultSecret at h
  cases hid : res.Id with
  | TenantId =>
    exfalso; rw [hid] at h; simp only [armid.ResourceId.RouteScopeString] at h
    revert h; decide
  | SubscriptionId a =>
    exfalso; rw [hid] at h; simp only [armid.ResourceId.RouteScopeString] at h
    revert h; decide
  | ResourceGroup a b =>
    exfalso; rw [hid] at h; simp only [armid.ResourceId.RouteScopeString] at h
    revert h; decide
  | ManagementGroup a =>
    exfalso; rw [hid] at h; simp only [armid.ResourceId.RouteScopeString] at h
    revert h; decide
  | ScopedResourceId scope provider types names =>
    refine ⟨scope, provider, types, names, rfl, ?_⟩
    intro hnil
    subst hnil
    rw [hid] at h
    have hdata : (armid.ResourceId.ScopedResourceId scope provider [] names).RouteScopeString.data
        = ('/' :: provider.data) ++ ['/'] := by
      simp [armid.ResourceId.RouteScopeString, String.intercalate, String.data_append]
    simp only [EqualFold, hdata, Bool.or_eq_true, beq_iff_eq] at h
    rcases h with h | h
    · have := suffix_last foldRune 1 _ _ _ (by simp) h
      revert this; decide
    · have := suffix_last foldRune 1 _ _ _ (by simp) h
      revert this; decide

/-- A resource whose last type segment is `certificates` is not a half. -/
theorem certificate_not_half (scope : armid.ResourceId) (provider : String)
    (types names : List String) (props : Option Doc) (pseudo : Option PesudoResourceInfo) :
    isCertificateHalf
      ({ Id := .ScopedResourceId scope provider (types ++ ["certificates"]) names
         Properties := props, PesudoResourceInfo := pseudo } : AzureResource Doc) = false := by
  obtain ⟨pre, hpre⟩ := routeScope_snoc scope provider types names "certificates"
  rw [Bool.eq_false_iff]
  intro h
  simp only [isCertificateHalf, isVaultKey, isVaultSecret, EqualFold, hpre, Bool.or_eq_true,
    beq_iff_eq] at h
  rcases h with h | h
  · have := suffix_last foldRune 2 _ _ _ (by decide) h
    revert this; decide
  · have := suffix_last foldRune 2 _ _ _ (by decide) h
    revert this; decide

theorem reduceLoop_others (A : List (AzureResource Doc))
    (hA : ∀ r ∈ A, isCertificateHalf r = false) :
    ∀ (rest nr : List (AzureResource Doc)) (pend : List (String × AzureResource Doc)),
      reduceLoop (A ++ rest) nr pend = reduceLoop rest (nr ++ A) pend := by
  induction A with
  | nil => intro rest nr pend; simp
  | cons a A ih =>
    intro rest nr pend
    have ha : isCertificateHalf a = false := hA a (by simp)
    simp only [isCertificateHalf, isVaultKey, isVaultSecret, Bool.or_eq_false_iff] at ha
    rw [List.cons_append, reduceLoop]
    simp only [ha.1, ha.2, Bool.not_false, Bool.and_self, if_true]
    rw [ih (fun r hr => hA r (by simp [hr]))]
    simp

theorem reduceLoop_first (h1 : AzureResource Doc) (name : String)
    (hh : isCertificateHalf h1 = true) (hn : h1.Id.Names.getLast? = some name)
    (rest nr : List (AzureResource Doc)) :
    reduceLoop (h1 :: rest) nr [] = reduceLoop rest nr [(name, h1)] := by
  have hc : (!EqualFold h1.Id.RouteScopeString "/Microsoft.KeyVault/vaults/keys"
      && !EqualFold h1.Id.RouteScopeString "/Microsoft.KeyVault/vaults/secrets") = false := by
    simp only [isCertificateHalf, isVaultKey, isVaultSecret] at hh
    rw [← Bool.not_or, hh]
    rfl
  rw [reduceLoop]
  simp [hc, hn]

theorem reduceLoop_second (h1 h2 : AzureResource Doc) (name : String)
    (scope : armid.ResourceId) (provider : String) (types names : List String)
    (hh : isCertificateHalf h2 = true) (hn : h2.Id.Names.getLast? = some name)
    (hid : h2.Id = .ScopedResourceId scope provider types names) (hty : types ≠ [])
    (rest nr : List (AzureResource Doc)) :
    reduceLoop (h2 :: rest) nr [(name, h1)]
      = reduceLoop rest
          (nr ++ [{ Id := .ScopedResourceId scope provider
                      (types.dropLast ++ ["certificates"]) names }]) [] := by
  have hc : (!EqualFold h2.Id.RouteScopeString "/Microsoft.KeyVault/vaults/keys"
      && !EqualFold h2.Id.RouteScopeString "/Microsoft.KeyVault/vaults/secrets") = false := by
    simp only [isCertificateHalf, isVaultKey, isVaultSecret] at hh
    rw [← Bool.not_or, hh]
    rfl
  have hlen : types.length ≠ 0 := fun h0 => hty (List.length_eq_zero.mp h0)
  rw [reduceLoop]
  simp only [hc, hn, Bool.false_eq_true, if_false]
  simp [List.lookup, hid, armid.ResourceId.Clone, hlen, set_last_eq_dropLast types _ hty]

/-- C4. Control-plane pair merge: on a set made of one vault key and one
vault secret with the same trailing name, `h1` seen first and `h2` later, and
of resources of other types (`A` before, `B` between, `C` after),
`ReduceResource` returns without failure the set `A ++ B ++ [cert] ++ C`:
one resource shorter, both halves absent, every other resource retained in
order, and `cert` carrying the id of `h2` with only the final type segment
rewritten to `certificates`. -/
theorem C4_certificate_merge
    (mapOrder : List (String × AzureResource Doc) → List (String × AzureResource Doc))
    (hperm : ∀ entries, (mapOrder entries).Perm entries)
    (A B C : List (AzureResource Doc)) (h1 h2 : AzureResource Doc) (name : String)
    (hA : ∀ r ∈ A, isCertificateHalf r = false)
    (hB : ∀ r ∈ B, isCertificateHalf r = false)
    (hC : ∀ r ∈ C, isCertificateHalf r = false)
    (hkinds : (isVaultKey h1 = true ∧ isVaultSecret h2 = true)
      ∨ (isVaultSecret h1 = true ∧ isVaultKey h2 = true))
    (hn1 : h1.Id.Names.getLast? = some name) (hn2 : h2.Id.Names.getLast? = some name) :
    ∃ scope provider types names out,
      h2.Id = .ScopedResourceId scope provider types names
      ∧ types ≠ []
      ∧ ReduceResource mapOrder (A ++ h1 :: (B ++ h2 :: C)) = (out, none)
      ∧ out = A ++ B ++
          ({ Id := .ScopedResourceId scope provider (types.dropLast ++ ["certificates"]) names }
            : AzureResource Doc) :: C
      ∧ out.length + 1 = (A ++ h1 :: (B ++ h2 :: C)).length
      ∧ h1 ∉ out ∧ h2 ∉ out
      ∧ (∀ r ∈ A ++ B ++ C, r ∈ out) := by
  have hh1 : isCertificateHalf h1 = true := by
    rcases hkinds with h | h <;> simp [isCertificateHalf, h.1]
  have hh2 : isCertificateHalf h2 = true := by
    rcases hkinds with h | h <;> simp [isCertificateHalf, h.2]
  obtain ⟨scope, provider, types, names, hid, hty⟩ := half_scoped h2 hh2
  have hcert := certificate_not_half scope provider types.dropLast names
    (none : Option Doc) none
  have hloop : reduceLoop (A ++ h1 :: (B ++ h2 :: C)) [] []
      = .ok (A ++ B ++
          ({ Id := .ScopedResourceId scope provider (types.dropLast ++ ["certificates"]) names }
            : AzureResource Doc) :: C, []) := by
    rw [reduceLoop_others A hA, reduceLoop_first h1 name hh1 hn1, reduceLoop_others B hB,
      reduceLoop_second h1 h2 name scope provider types names hh2 hn2 hid hty]
    have := reduceLoop_others C hC [] ([] ++ A ++ B ++
      [({ Id := .ScopedResourceId scope provider (types.dropLast ++ ["certificates"]) names }
        : AzureResource Doc)]) []
    rw [List.append_nil] at this
    rw [this]
    simp [reduceLoop]
  have hempty : mapOrder [] = [] := List.Perm.eq_nil (hperm [])
  have hnot : ∀ h : AzureResource Doc, isCertificateHalf h = true →
      h ∉ A ++ B ++
          ({ Id := .ScopedResourceId scope provider (types.dropLast ++ ["certificates"]) names }
            : AzureResource Doc) :: C := by
    intro h hh hmem
    simp only [List.mem_append, List.mem_cons] at hmem
    rcases hmem with (hm | hm) | hm | hm
    · rw [hA h hm] at hh; cases hh
    · rw [hB h hm] at hh; cases hh
    · rw [hm, hcert] at hh; cases hh
    · rw [hC h hm] at hh; cases hh
  refine ⟨scope, provider, types, names, _, hid, hty, ?_, rfl, ?_, hnot h1 hh1, hnot h2 hh2, ?_⟩
  · simp [ReduceResource, reduceForKeyVaultCertificate, hloop, hempty]
  · simp only [List.length_append, List.length_cons]
    omega
  · intro r hr
    simp only [List.mem_append, List.mem_cons] at hr ⊢
    rcases hr with (hr | hr) | hr
    · exact Or.inl (Or.inl hr)
    · exact Or.inl (Or.inr hr)
    · exact Or.inr (Or.inr hr)

/-- C4 at a storage account, the secret of `cert1`, and the key of `cert1`:
the result is the storage account and the certificate `cert1`. -/
theorem C4_certificate_merge_witness :
    isVaultSecret sampleSecret = true ∧ isVaultKey sampleKey = true
    ∧ ReduceResource id [sampleStorage, sampleSecret, sampleKey]
        = ([sampleStorage, { Id := sampleVaultChild "certificates" "cert1" }], none) :=
  ⟨by decide, by decide,
    match C4_certificate_merge id (fun _ => List.Perm.refl _) [sampleStorage] [] []
      sampleSecret sampleKey "cert1" (by decide) (by decide) (by decide)
      (Or.inr ⟨by decide, by decide⟩) (by decide) (by decide) with
    | ⟨_, _, _, _, _, hid, _, hred, hout, _⟩ => by
      cases hid
      exact hred.trans (by rw [hout]; rfl)⟩

/-! ## `PopulateResource`: the managed-disk rule -/

theorem ToUpper_eq_iff (s target : String) :
    ToUpper s = target ↔ s.data.map upperRune = target.data := by
  unfold ToUpper
  constructor
  · intro h; rw [← h]
  · intro h; rw [h]

/-- A scoped id whose last type segment `x` ends, in upper case, in two
characters other than the last two of `target` does not have the route scope
`target`. -/
theorem snoc_upper_ne (scope : armid.ResourceId) (provider : String)
    (types names : List String) (x target : String) (hx : 2 ≤ x.data.length)
    (hne : ((x.data.map upperRune).reverse).take 2 ≠ (target.data.reverse).take 2) :
    ToUpper (armid.ResourceId.ScopedResourceId scope provider (types ++ [x]) names).RouteScopeString
      ≠ target := by
  obtain ⟨pre, hpre⟩ := routeScope_snoc scope provider types names x
  intro h
  rw [ToUpper_eq_iff, hpre] at h
  exact hne (suffix_last upperRune 2 _ _ _ hx h)

/-- A resource of the virtual-machine type has a scoped id. -/
theorem vm_scoped (id : armid.ResourceId)
    (h : ToUpper id.RouteScopeString = "/MICROSOFT.COMPUTE/VIRTUALMACHINES") :
    ∃ scope provider types names, id = .ScopedResourceId scope provider types names := by
  cases id with
  | ScopedResourceId scope provider types names => exact ⟨scope, provider, types, names, rfl⟩
  | TenantId => exfalso; simp only [armid.ResourceId.RouteScopeString] at h; revert h; decide
  | SubscriptionId a =>
    exfalso; simp only [armid.ResourceId.RouteScopeString] at h; revert h; decide
  | ResourceGroup a b =>
    exfalso; simp only [armid.ResourceId.RouteScopeString] at h; revert h; decide
  | ManagementGroup a =>
    exfalso; simp only [armid.ResourceId.RouteScopeString] at h; revert h; decide

theorem parseIds_ok (c : Collaborators Doc) (mids : List String) (ids : List armid.ResourceId)
    (h : List.Forall₂ (fun mid id => c.ParseResourceId mid = .ok id) mids ids) :
    parseIds c mids = .ok (ids.map fun id => { Id := id }) := by
  induction h with
  | nil => rfl
  | cons hd _ ih => simp [parseIds, hd, ih]

theorem attachLoop_ok (c : Collaborators Doc) (res : AzureResource Doc)
    (scope : armid.ResourceId) (provider : String) (types names : List String)
    (vmTFId : String)
    (hid : res.Id = .ScopedResourceId scope provider types names)
    (hquery : c.QueryId (c.IdString res.Id) "azurerm_linux_virtual_machine" = .ok vmTFId) :
    ∀ (disks acc : List (AzureResource Doc)), (∀ d ∈ disks, d.Id.Names ≠ []) →
      attachLoop c res disks acc
        = (acc ++ disks.map (fun d =>
            { Id := .ScopedResourceId scope provider (types ++ ["dataDisks"])
                (names ++ [d.Id.Names.headD ""])
              PesudoResourceInfo := some
                { TFType := "azurerm_virtual_machine_data_disk_attachment"
                  TFId := vmTFId ++ "/dataDisks/" ++ d.Id.Names.headD "" } }), none) := by
  intro disks
  induction disks with
  | nil => intro acc _; simp [attachLoop]
  | cons d rest ih =>
    intro acc hn
    have hd : d.Id.Names ≠ [] := hn d (by simp)
    cases hnames : d.Id.Names with
    | nil => exact absurd hnames hd
    | cons diskName more =>
      have hquery2 := hquery
      rw [hid] at hquery2
      rw [attachLoop]
      simp only [hnames, hid, hquery2, armid.ResourceId.Clone]
      rw [ih _ (fun x hx => hn x (by simp [hx]))]
      simp [hnames]

theorem rangeLoop_nic_skip (c : Collaborators Doc) :
    ∀ (L acc : List (AzureResource Doc)),
      (∀ r ∈ L, ToUpper r.Id.RouteScopeString ≠ "/MICROSOFT.NETWORK/NETWORKINTERFACES") →
      rangeLoop (nicStep c) L acc = (acc, none) := by
  intro L
  induction L with
  | nil => intro acc _; rfl
  | cons r rest ih =>
    intro acc h
    have hr := h r (by simp)
    rw [rangeLoop]
    simp only [nicStep, bne_iff_ne, ne_eq, hr, not_false_eq_true, if_true]
    exact ih acc (fun x hx => h x (by simp [hx]))

/-- C5. Managed-disk synthesis: on a set made of one virtual machine whose
properties reference the managed disks `diskIds` (each a `Microsoft.Compute/disks`
id with a name) and whose target id resolves to `vmTargetId`,
`PopulateResource` succeeds with `1 + 2k` resources: the virtual machine,
then the `k` disks as ordinary resources, then per disk a pseudo resource of
type `azurerm_virtual_machine_data_disk_attachment` whose `TFId` is
`vmTargetId`, `/dataDisks/`, and the name of the disk. -/
theorem C5_managed_disk_synthesis (c : Collaborators Doc) (vm : AzureResource Doc)
    (b : String) (mids : List String) (diskIds : List armid.ResourceId) (vmTargetId : String)
    (hvm : ToUpper vm.Id.RouteScopeString = "/MICROSOFT.COMPUTE/VIRTUALMACHINES")
    (hmarshal : c.Marshal vm.Properties = .ok b)
    (hget : c.GetBytes b "properties.storageProfile.dataDisks.#.managedDisk.id" = some mids)
    (hparse : List.Forall₂ (fun mid id => c.ParseResourceId mid = .ok id) mids diskIds)
    (hdisk : ∀ id ∈ diskIds,
      ToUpper id.RouteScopeString = "/MICROSOFT.COMPUTE/DISKS" ∧ id.Names ≠ [])
    (hquery : c.QueryId (c.IdString vm.Id) "azurerm_linux_virtual_machine" = .ok vmTargetId) :
    ∃ scope provider types names,
      vm.Id = .ScopedResourceId scope provider types names
      ∧ PopulateResource c [vm]
        = ([vm] ++ diskIds.map (fun id => ({ Id := id } : AzureResource Doc))
            ++ diskIds.map (fun id =>
              ({ Id := .ScopedResourceId scope provider (types ++ ["dataDisks"])
                    (names ++ [id.Names.headD ""])
                 PesudoResourceInfo := some
                   { TFType := "azurerm_virtual_machine_data_disk_attachment"
                     TFId := vmTargetId ++ "/dataDisks/" ++ id.Names.headD "" } }
                : AzureResource Doc)), none)
      ∧ (PopulateResource c [vm]).1.length = 1 + 2 * diskIds.length := by
  obtain ⟨scope, provider, types, names, hid⟩ := vm_scoped vm.Id hvm
  have hpath : populateResourceByPath c vm
      ["properties.storageProfile.dataDisks.#.managedDisk.id"]
      = .ok (diskIds.map fun id => { Id := id }) := by
    simp [populateResourceByPath, hmarshal, pathLoop, hget, parseIds_ok c mids diskIds hparse]
  have hvmpass : populateForVirtualMachine c [vm]
      = ([vm] ++ diskIds.map (fun id => ({ Id := id } : AzureResource Doc))
            ++ diskIds.map (fun id =>
              ({ Id := .ScopedResourceId scope provider (types ++ ["dataDisks"])
                    (names ++ [id.Names.headD ""])
                 PesudoResourceInfo := some
                   { TFType := "azurerm_virtual_machine_data_disk_attachment"
                     TFId := vmTargetId ++ "/dataDisks/" ++ id.Names.headD "" } }
                : AzureResource Doc)), none) := by
    have hnames : ∀ d ∈ diskIds.map (fun id => ({ Id := id } : AzureResource Doc)),
        d.Id.Names ≠ [] := by
      intro d hd
      obtain ⟨id, hmem, rfl⟩ := List.mem_map.mp hd
      exact (hdisk id hmem).2
    simp only [populateForVirtualMachine, rangeLoop, vmStep, hvm, bne_self_eq_false,
      Bool.false_eq_true, if_false, hpath]
    rw [attachLoop_ok c vm scope provider types names vmTargetId hid hquery _ _ hnames]
    simp [List.map_map, Function.comp_def]
  have hnic : ∀ r ∈ [vm] ++ diskIds.map (fun id => ({ Id := id } : AzureResource Doc))
      ++ diskIds.map (fun id =>
        ({ Id := .ScopedResourceId scope provider (types ++ ["dataDisks"])
              (names ++ [id.Names.headD ""])
           PesudoResourceInfo := some
             { TFType := "azurerm_virtual_machine_data_disk_attachment"
               TFId := vmTargetId ++ "/dataDisks/" ++ id.Names.headD "" } }
          : AzureResource Doc)),
      ToUpper r.Id.RouteScopeString ≠ "/MICROSOFT.NETWORK/NETWORKINTERFACES" := by
    intro r hr
    simp only [List.mem_append, List.mem_singleton, List.mem_map] at hr
    rcases hr with (hr | ⟨id, hmem, rfl⟩) | ⟨id, _, rfl⟩
    · rw [hr, hvm]; decide
    · rw [(hdisk id hmem).1]; decide
    · exact snoc_upper_ne scope provider types _ "dataDisks" _ (by decide) (by decide)
  have hall : PopulateResource c [vm]
      = ([vm] ++ diskIds.map (fun id => ({ Id := id } : AzureResource Doc))
            ++ diskIds.map (fun id =>
              ({ Id := .ScopedResourceId scope provider (types ++ ["dataDisks"])
                    (names ++ [id.Names.headD ""])
                 PesudoResourceInfo := some
                   { TFType := "azurerm_virtual_machine_data_disk_attachment"
                     TFId := vmTargetId ++ "/dataDisks/" ++ id.Names.headD "" } }
                : AzureResource Doc)), none) := by
    simp only [PopulateResource, hvmpass, populateForNetworkInterfaces]
    exact rangeLoop_nic_skip c _ _ hnic
  refine ⟨scope, provider, types, names, hid, hall, ?_⟩
  rw [hall]
  simp only [List.length_append, List.length_map, List.length_singleton]
  omega

/-- C5 at one virtual machine that references the managed disk `disk1`:
three resources, the attachment has the id of the machine followed by
`/dataDisks/disk1`. -/
theorem C5_managed_disk_synthesis_witness :
    ToUpper sampleVM.Id.RouteScopeString = "/MICROSOFT.COMPUTE/VIRTUALMACHINES"
    ∧ PopulateResource sampleCollaborators [sampleVM]
      = ([sampleVM, sampleDisk, sampleAttachment], none)
    ∧ sampleAttachment.PesudoResourceInfo.map (fun p => p.TFId)
      = some (sampleIdString sampleVM.Id ++ "/dataDisks/" ++ "disk1")
    ∧ (PopulateResource sampleCollaborators [sampleVM]).1.length = 1 + 2 * 1 :=
  ⟨by decide, by decide, by decide,
    match C5_managed_disk_synthesis sampleCollaborators sampleVM "vm-body"
      ["/subscriptions/sub/resourceGroups/rg/providers/Microsoft.Compute/disks/disk1"]
      [sampleDiskId] (sampleIdString sampleVM.Id) (by decide) rfl rfl
      (List.Forall₂.cons rfl List.Forall₂.nil) (by decide) rfl with
    | ⟨_, _, _, _, _, _, hlen⟩ => hlen⟩

/-! ## `PopulateResource` applied twice -/

/-- A loop whose step only appends to the set, and appends the same whatever
the set is, appends the same whatever set it starts from. -/
theorem rangeLoop_append
    (step : List (AzureResource Doc) → AzureResource Doc →
      List (AzureResource Doc) × Option Failure)
    (hstep : ∀ acc res, step acc res = (acc ++ (step [] res).1, (step [] res).2)) :
    ∀ (L acc : List (AzureResource Doc)),
      rangeLoop step L acc = (acc ++ (rangeLoop step L []).1, (rangeLoop step L []).2) := by
  intro L
  induction L with
  | nil => intro acc; simp [rangeLoop]
  | cons r rest ih =>
    intro acc
    rw [rangeLoop, rangeLoop, hstep acc r]
    cases he : (step [] r).2 with
    | none =>
      have h0 : step [] r = ((step [] r).1, none) := by rw [← he]
      rw [h0]
      simp only
      rw [ih (acc ++ (step [] r).1), ih (step [] r).1]
      simp
    | some f =>
      have h0 : step [] r = ((step [] r).1, some f) := by rw [← he]
      rw [h0]

/-- Splitting the snapshot of a loop. -/
theorem rangeLoop_split
    (step : List (AzureResource Doc) → AzureResource Doc →
      List (AzureResource Doc) × Option Failure) :
    ∀ (L1 L2 acc : List (AzureResource Doc)),
      rangeLoop step (L1 ++ L2) acc
        = match rangeLoop step L1 acc with
          | (a, none) => rangeLoop step L2 a
          | (a, some f) => (a, some f) := by
  intro L1
  induction L1 with
  | nil => intro L2 acc; simp [rangeLoop]
  | cons r rest ih =>
    intro L2 acc
    rw [List.cons_append, rangeLoop, rangeLoop]
    rcases hs : step acc r with ⟨a, _ | f⟩
    · simp only
      exact ih L2 a
    · rfl

theorem rangeLoop_concat
    (step : List (AzureResource Doc) → AzureResource Doc →
      List (AzureResource Doc) × Option Failure)
    (hstep : ∀ acc res, step acc res = (acc ++ (step [] res).1, (step [] res).2))
    (L1 L2 X1 X2 : List (AzureResource Doc)) (e : Option Failure)
    (h1 : rangeLoop step L1 [] = (X1, none)) (h2 : rangeLoop step L2 [] = (X2, e)) :
    rangeLoop step (L1 ++ L2) [] = (X1 ++ X2, e) := by
  rw [rangeLoop_split, h1]
  simp only
  rw [rangeLoop_append step hstep L2 X1, h2]

theorem rangeLoop_unconcat
    (step : List (AzureResource Doc) → AzureResource Doc →
      List (AzureResource Doc) × Option Failure)
    (hstep : ∀ acc res, step acc res = (acc ++ (step [] res).1, (step [] res).2))
    (L1 L2 X : List (AzureResource Doc))
    (h : rangeLoop step (L1 ++ L2) [] = (X, none)) :
    ∃ X1 X2, rangeLoop step L1 [] = (X1, none) ∧ rangeLoop step L2 [] = (X2, none)
      ∧ X = X1 ++ X2 := by
  rw [rangeLoop_split] at h
  rcases h1 : rangeLoop step L1 [] with ⟨X1, _ | f⟩
  · rw [h1] at h
    simp only at h
    rw [rangeLoop_append step hstep L2 X1] at h
    rcases h2 : rangeLoop step L2 [] with ⟨X2, e2⟩
    rw [h2] at h
    simp only [Prod.mk.injEq] at h
    obtain ⟨hx, he⟩ := h
    subst he
    exact ⟨X1, X2, rfl, rfl, hx.symm⟩
  · rw [h1] at h
    simp at h

/-- A property of the resources of the set that every step preserves holds
of the set when the loop ends. -/
theorem rangeLoop_preserves
    (step : List (AzureResource Doc) → AzureResource Doc →
      List (AzureResource Doc) × Option Failure)
    (P : AzureResource Doc → Prop)
    (hstep : ∀ acc res, (∀ r ∈ acc, P r) → ∀ r ∈ (step acc res).1, P r) :
    ∀ (L acc : List (AzureResource Doc)), (∀ r ∈ acc, P r) →
      ∀ r ∈ (rangeLoop step L acc).1, P r := by
  intro L
  induction L with
  | nil => intro acc h; simpa [rangeLoop] using h
  | cons x rest ih =>
    intro acc h
    rw [rangeLoop]
    have hx := hstep acc x h
    rcases hs : step acc x with ⟨a, _ | f⟩
    · rw [hs] at hx
      exact ih a hx
    · rw [hs] at hx
      exact hx

theorem attachLoop_append (c : Collaborators Doc) (res : AzureResource Doc) :
    ∀ (disks acc : List (AzureResource Doc)),
      attachLoop c res disks acc
        = (acc ++ (attachLoop c res disks []).1, (attachLoop c res disks []).2) := by
  intro disks
  induction disks with
  | nil => intro acc; simp [attachLoop]
  | cons d rest ih =>
    intro acc
    rw [attachLoop, attachLoop]
    cases d.Id.Names with
    | nil => simp
    | cons diskName more =>
      simp only
      cases c.QueryId (c.IdString res.Id) "azurerm_linux_virtual_machine" with
      | error err => simp
      | ok vmTFId =>
        simp only
        cases res.Id.Clone with
        | ScopedResourceId scope provider types names =>
          simp only
          rw [ih (acc ++ _), ih ([] ++ _)]
          simp
        | _ => simp

theorem vmStep_append (c : Collaborators Doc) (acc : List (AzureResource Doc))
    (res : AzureResource Doc) :
    vmStep c acc res = (acc ++ (vmStep c [] res).1, (vmStep c [] res).2) := by
  unfold vmStep
  split
  · simp
  · cases populateResourceByPath c res
        ["properties.storageProfile.dataDisks.#.managedDisk.id"] with
    | error err => simp
    | ok disks =>
      simp only
      rw [attachLoop_append c res disks (acc ++ disks),
        attachLoop_append c res disks ([] ++ disks)]
      simp

theorem nicStep_append (c : Collaborators Doc) (acc : List (AzureResource Doc))
    (res : AzureResource Doc) :
    nicStep c acc res = (acc ++ (nicStep c [] res).1, (nicStep c [] res).2) := by
  unfold nicStep
  split
  · simp
  · cases networkInterfacePopulateNSGAssociation c res with
    | error f => simp
    | ok nsgAssociations =>
      simp only
      cases networkInterfacePopulateApplicationGatewayBackendAddressPoolAssociation c res with
      | error f => simp
      | ok bapAssociations => simp

theorem parseIds_props (c : Collaborators Doc) :
    ∀ (mids : List String) (out : List (AzureResource Doc)),
      parseIds c mids = .ok out → ∀ r ∈ out, r.Properties = none := by
  intro mids
  induction mids with
  | nil => intro out h; simp [parseIds] at h; subst h; simp
  | cons mid rest ih =>
    intro out h
    rw [parseIds] at h
    cases hp : c.ParseResourceId mid with
    | error err => rw [hp] at h; cases h
    | ok id =>
      rw [hp] at h
      simp only at h
      cases hr : parseIds c rest with
      | error e => rw [hr] at h; cases h
      | ok resources =>
        rw [hr] at h
        cases h
        intro r hmem
        rcases List.mem_cons.mp hmem with h1 | h1
        · rw [h1]
        · exact ih resources hr r h1

theorem pathLoop_props (c : Collaborators Doc) (b : String) :
    ∀ (paths : List String) (out : List (AzureResource Doc)),
      pathLoop c b paths = .ok out → ∀ r ∈ out, r.Properties = none := by
  intro paths
  induction paths with
  | nil => intro out h; simp [pathLoop] at h; subst h; simp
  | cons path rest ih =>
    intro out h
    rw [pathLoop] at h
    cases hg : c.GetBytes b path with
    | none => rw [hg] at h; exact ih out h
    | some mids =>
      rw [hg] at h
      simp only at h
      cases hp : parseIds c mids with
      | error e => rw [hp] at h; cases h
      | ok found =>
        rw [hp] at h
        simp only at h
        cases hr : pathLoop c b rest with
        | error e => rw [hr] at h; cases h
        | ok more =>
          rw [hr] at h
          cases h
          intro r hmem
          rcases List.mem_append.mp hmem with h1 | h1
          · exact parseIds_props c mids found hp r h1
          · exact ih more hr r h1

theorem populateResourceByPath_props (c : Collaborators Doc) (res : AzureResource Doc)
    (paths : List String) (out : List (AzureResource Doc))
    (h : populateResourceByPath c res paths = .ok out) : ∀ r ∈ out, r.Properties = none := by
  unfold populateResourceByPath at h
  cases hm : c.Marshal res.Properties with
  | error err => rw [hm] at h; cases h
  | ok b => rw [hm] at h; exact pathLoop_props c b paths out h

theorem attachLoop_props (c : Collaborators Doc) (res : AzureResource Doc) :
    ∀ (disks acc : List (AzureResource Doc)), (∀ r ∈ acc, r.Properties = none) →
      ∀ r ∈ (attachLoop c res disks acc).1, r.Properties = none := by
  intro disks
  induction disks with
  | nil => intro acc h; simpa [attachLoop] using h
  | cons d rest ih =>
    intro acc h
    rw [attachLoop]
    cases d.Id.Names with
    | nil => simpa using h
    | cons diskName more =>
      simp only
      cases c.QueryId (c.IdString res.Id) "azurerm_linux_virtual_machine" with
      | error err => simpa using h
      | ok vmTFId =>
        simp only
        cases res.Id.Clone with
        | ScopedResourceId scope provider types names =>
          simp only
          apply ih
          intro r hr
          rcases List.mem_append.mp hr with h1 | h1
          · exact h r h1
          · rw [List.mem_singleton.mp h1]
        | _ => simpa using h

theorem vmStep_props (c : Collaborators Doc) (acc : List (AzureResource Doc))
    (res : AzureResource Doc) (h : ∀ r ∈ acc, r.Properties = none) :
    ∀ r ∈ (vmStep c acc res).1, r.Properties = none := by
  unfold vmStep
  split
  · simpa using h
  · cases hp : populateResourceByPath c res
        ["properties.storageProfile.dataDisks.#.managedDisk.id"] with
    | error err => simpa using h
    | ok disks =>
      simp only
      apply attachLoop_props
      intro r hr
      rcases List.mem_append.mp hr with h1 | h1
      · exact h r h1
      · exact populateResourceByPath_props c res _ disks hp r h1

theorem nsgAssociation_props (c : Collaborators Doc) (res : AzureResource Doc)
    (out : List (AzureResource Doc))
    (h : networkInterfacePopulateNSGAssociation c res = .ok out) :
    ∀ r ∈ out, r.Properties = none
      ∧ ToUpper r.Id.RouteScopeString ≠ "/MICROSOFT.NETWORK/NETWORKINTERFACES" := by
  unfold networkInterfacePopulateNSGAssociation at h
  split at h
  · cases h
  · rename_i nsg _
    split at h
    · cases h
    · split at h
      · cases h
      · split at h
        · cases h
          intro r hr
          rw [List.mem_singleton.mp hr]
          exact ⟨rfl, snoc_upper_ne _ _ _ _ "networkSecurityGroups" _ (by decide) (by decide)⟩
        · cases h
        · cases h
  · cases h
    intro r hr
    cases hr

theorem bapLoop_props (c : Collaborators Doc) (tfNicId : String) (ipConfig : AzureResource Doc) :
    ∀ (baps out : List (AzureResource Doc)), bapLoop c tfNicId ipConfig baps = .ok out →
      ∀ r ∈ out, r.Properties = none
        ∧ ToUpper r.Id.RouteScopeString ≠ "/MICROSOFT.NETWORK/NETWORKINTERFACES" := by
  intro baps
  induction baps with
  | nil => intro out h; simp [bapLoop] at h; subst h; simp
  | cons bap rest ih =>
    intro out h
    rw [bapLoop] at h
    split at h
    · cases h
    · split at h
      · cases h
      · split at h
        · cases hr : bapLoop c tfNicId ipConfig rest with
          | error f => rw [hr] at h; cases h
          | ok more =>
            rw [hr] at h
            cases h
            intro r hmem
            rcases List.mem_cons.mp hmem with h1 | h1
            · rw [h1]
              exact ⟨rfl, snoc_upper_ne _ _ _ _ "backendAddressPools" _ (by decide) (by decide)⟩
            · exact ih more hr r h1
        · cases h
        · cases h

theorem ipConfigLoop_props (c : Collaborators Doc) (res : AzureResource Doc) (tfNicId : String) :
    ∀ (ipConfigs : List (AzureResource Doc)) (i : Nat) (out : List (AzureResource Doc)),
      ipConfigLoop c res tfNicId i ipConfigs = .ok out →
      ∀ r ∈ out, r.Properties = none
        ∧ ToUpper r.Id.RouteScopeString ≠ "/MICROSOFT.NETWORK/NETWORKINTERFACES" := by
  intro ipConfigs
  induction ipConfigs with
  | nil => intro i out h; simp [ipConfigLoop] at h; subst h; simp
  | cons ipConfig rest ih =>
    intro i out h
    rw [ipConfigLoop] at h
    split at h
    · cases h
    · rename_i baps _
      cases hb : bapLoop c tfNicId ipConfig baps with
      | error f => rw [hb] at h; cases h
      | ok found =>
        rw [hb] at h
        simp only at h
        cases hr : ipConfigLoop c res tfNicId (i + 1) rest with
        | error f => rw [hr] at h; cases h
        | ok more =>
          rw [hr] at h
          cases h
          intro r hmem
          rcases List.mem_append.mp hmem with h1 | h1
          · exact bapLoop_props c tfNicId ipConfig baps found hb r h1
          · exact ih (i + 1) more hr r h1

theorem bapAssociation_props (c : Collaborators Doc) (res : AzureResource Doc)
    (out : List (AzureResource Doc))
    (h : networkInterfacePopulateApplicationGatewayBackendAddressPoolAssociation c res = .ok out) :
    ∀ r ∈ out, r.Properties = none
      ∧ ToUpper r.Id.RouteScopeString ≠ "/MICROSOFT.NETWORK/NETWORKINTERFACES" := by
  unfold networkInterfacePopulateApplicationGatewayBackendAddressPoolAssociation at h
  split at h
  · cases h
  · split at h
    · cases h
    · exact ipConfigLoop_props c res _ _ 0 out h

/-- What the network-interface step appends has no properties and is not a
network interface. -/
theorem nicStep_out_props (c : Collaborators Doc) (res : AzureResource Doc) :
    ∀ r ∈ (nicStep c [] res).1, r.Properties = none
      ∧ ToUpper r.Id.RouteScopeString ≠ "/MICROSOFT.NETWORK/NETWORKINTERFACES" := by
  unfold nicStep
  split
  · intro r hr; cases hr
  · cases hn : networkInterfacePopulateNSGAssociation c res with
    | error f => intro r hr; cases hr
    | ok nsgAssociations =>
      simp only
      cases hb : networkInterfacePopulateApplicationGatewayBackendAddressPoolAssociation c res with
      | error f =>
        intro r hr
        exact nsgAssociation_props c res _ hn r (by simpa using hr)
      | ok bapAssociations =>
        intro r hr
        simp only [List.nil_append, List.mem_append] at hr
        rcases hr with h1 | h1
        · exact nsgAssociation_props c res _ hn r h1
        · exact bapAssociation_props c res _ hb r h1

theorem populateResourceByPath_nil (c : Collaborators Doc) (res : AzureResource Doc)
    (b0 path : String) (hres : res.Properties = none)
    (hmarshal : c.Marshal none = .ok b0) (hget : c.GetBytes b0 path = none) :
    populateResourceByPath c res [path] = .ok [] := by
  simp [populateResourceByPath, hres, hmarshal, pathLoop, hget]

theorem vmStep_nil (c : Collaborators Doc) (b0 : String)
    (hmarshal : c.Marshal none = .ok b0)
    (hget : c.GetBytes b0 "properties.storageProfile.dataDisks.#.managedDisk.id" = none)
    (acc : List (AzureResource Doc)) (res : AzureResource Doc) (hres : res.Properties = none) :
    vmStep c acc res = (acc, none) := by
  unfold vmStep
  split
  · rfl
  · rw [populateResourceByPath_nil c res b0 _ hres hmarshal hget]
    simp [attachLoop]

theorem nicStep_nil (c : Collaborators Doc) (b0 : String)
    (hmarshal : c.Marshal none = .ok b0)
    (hnsg : c.GetBytes b0 "properties.networkSecurityGroup.id" = none)
    (hip : c.GetBytes b0 "properties.ipConfigurations.#.id" = none)
    (res : AzureResource Doc) (hres : res.Properties = none) :
    (nicStep c [] res).1 = [] := by
  unfold nicStep
  split
  · rfl
  · have h1 : networkInterfacePopulateNSGAssociation c res = .ok [] := by
      unfold networkInterfacePopulateNSGAssociation
      rw [populateResourceByPath_nil c res b0 _ hres hmarshal hnsg]
    rw [h1]
    simp only
    unfold networkInterfacePopulateApplicationGatewayBackendAddressPoolAssociation
    cases c.QueryId (c.IdString res.Id) "azurerm_network_interface" with
    | error err => rfl
    | ok tfNicId =>
      simp only
      rw [populateResourceByPath_nil c res b0 _ hres hmarshal hip]
      rfl

theorem rangeLoop_vm_nil (c : Collaborators Doc) (b0 : String)
    (hmarshal : c.Marshal none = .ok b0)
    (hget : c.GetBytes b0 "properties.storageProfile.dataDisks.#.managedDisk.id" = none) :
    ∀ (L acc : List (AzureResource Doc)), (∀ r ∈ L, r.Properties = none) →
      rangeLoop (vmStep c) L acc = (acc, none) := by
  intro L
  induction L with
  | nil => intro acc _; rfl
  | cons x rest ih =>
    intro acc h
    rw [rangeLoop, vmStep_nil c b0 hmarshal hget acc x (h x (by simp))]
    exact ih acc (fun r hr => h r (by simp [hr]))

theorem rangeLoop_nic_nil (c : Collaborators Doc) (b0 : String)
    (hmarshal : c.Marshal none = .ok b0)
    (hnsg : c.GetBytes b0 "properties.networkSecurityGroup.id" = none)
    (hip : c.GetBytes b0 "properties.ipConfigurations.#.id" = none) :
    ∀ (L : List (AzureResource Doc)), (∀ r ∈ L, r.Properties = none) →
      (rangeLoop (nicStep c) L []).1 = [] := by
  intro L
  induction L with
  | nil => intro _; rfl
  | cons x rest ih =>
    intro h
    have hx := nicStep_nil c b0 hmarshal hnsg hip x (h x (by simp))
    rw [rangeLoop]
    rcases hs : nicStep c [] x with ⟨a, _ | f⟩
    · rw [hs] at hx
      simp only at hx ⊢
      subst hx
      exact ih (fun r hr => h r (by simp [hr]))
    · rw [hs] at hx
      exact hx

/-- C6 as stated fails: on the virtual machine that references `disk1`, a
second `PopulateResource` succeeds and appends the disk and its attachment
once more, five resources after three. -/
theorem C6_counterexample :
    PopulateResource sampleCollaborators [sampleVM]
      = ([sampleVM, sampleDisk, sampleAttachment], none)
    ∧ PopulateResource sampleCollaborators [sampleVM, sampleDisk, sampleAttachment]
      = ([sampleVM, sampleDisk, sampleAttachment, sampleDisk, sampleAttachment], none)
    ∧ [sampleVM, sampleDisk, sampleAttachment, sampleDisk, sampleAttachment]
      ≠ [sampleVM, sampleDisk, sampleAttachment] := by
  decide

/-- C6, amended. Given that a resource without properties yields no reference
(`json.Marshal` of absent properties gives a document in which `gjson` finds
none of the three fixed paths): when `PopulateResource` succeeds on `S` with
result `T`, then `T` is `S` followed by appended resources `D` that carry no
properties; a second application to `T` succeeds and appends `D` once more,
so it derives nothing from the appended resources and it returns `T`
unchanged exactly when the first application appended nothing, which is the
case when no resource of `S` carries properties. -/
theorem C6_populate_twice (c : Collaborators Doc) (b0 : String)
    (hmarshal : c.Marshal none = .ok b0)
    (hdisk : c.GetBytes b0 "properties.storageProfile.dataDisks.#.managedDisk.id" = none)
    (hnsg : c.GetBytes b0 "properties.networkSecurityGroup.id" = none)
    (hip : c.GetBytes b0 "properties.ipConfigurations.#.id" = none)
    (S T : List (AzureResource Doc))
    (h : PopulateResource c S = (T, none)) :
    ∃ D, T = S ++ D
      ∧ (∀ d ∈ D, d.Properties = none)
      ∧ PopulateResource c T = (T ++ D, none)
      ∧ (PopulateResource c T = (T, none) ↔ D = [])
      ∧ ((∀ r ∈ S, r.Properties = none) → D = []) := by
  -- the first application
  unfold PopulateResource populateForVirtualMachine at h
  rw [rangeLoop_append (vmStep c) (vmStep_append c) S S] at h
  rcases hV : rangeLoop (vmStep c) S [] with ⟨Dvm, _ | f⟩
  swap
  · rw [hV] at h; simp at h
  rw [hV] at h
  simp only [populateForNetworkInterfaces] at h
  rw [rangeLoop_append (nicStep c) (nicStep_append c) (S ++ Dvm) (S ++ Dvm)] at h
  rcases hN : rangeLoop (nicStep c) (S ++ Dvm) [] with ⟨Dn, _ | f⟩
  swap
  · rw [hN] at h; simp at h
  rw [hN] at h
  simp only [Prod.mk.injEq, and_true] at h
  obtain ⟨N1, N2, hN1, hN2, hDn⟩ := rangeLoop_unconcat (nicStep c) (nicStep_append c) S Dvm Dn hN
  -- what was appended carries no properties
  have hDvm : ∀ r ∈ Dvm, r.Properties = none := by
    have := rangeLoop_preserves (vmStep c) (fun r => r.Properties = none)
      (vmStep_props c) S [] (by simp)
    rw [hV] at this
    exact this
  have hN2nil : N2 = [] := by
    have := rangeLoop_nic_nil c b0 hmarshal hnsg hip Dvm hDvm
    rw [hN2] at this
    exact this
  subst hN2nil
  rw [List.append_nil] at hDn
  subst hDn
  have hDn : ∀ r ∈ Dn, r.Properties = none
      ∧ ToUpper r.Id.RouteScopeString ≠ "/MICROSOFT.NETWORK/NETWORKINTERFACES" := by
    have := rangeLoop_preserves (nicStep c)
      (fun r => r.Properties = none
        ∧ ToUpper r.Id.RouteScopeString ≠ "/MICROSOFT.NETWORK/NETWORKINTERFACES")
      (by
        intro acc res hacc r hr
        rw [nicStep_append c acc res] at hr
        rcases List.mem_append.mp hr with h1 | h1
        · exact hacc r h1
        · exact nicStep_out_props c res r h1) S [] (by simp)
    rw [hN1] at this
    exact this
  have hD : ∀ d ∈ Dvm ++ Dn, d.Properties = none := by
    intro d hd
    rcases List.mem_append.mp hd with h1 | h1
    · exact hDvm d h1
    · exact (hDn d h1).1
  -- the second application
  have hvm2 : rangeLoop (vmStep c) (S ++ (Dvm ++ Dn)) [] = (Dvm, none) := by
    have := rangeLoop_concat (vmStep c) (vmStep_append c) S (Dvm ++ Dn) Dvm [] none hV
      (rangeLoop_vm_nil c b0 hmarshal hdisk (Dvm ++ Dn) [] hD)
    simpa using this
  have hnicD : rangeLoop (nicStep c) Dvm [] = ([], none) := hN2
  have hnic2 : rangeLoop (nicStep c) (S ++ (Dvm ++ (Dn ++ Dvm))) [] = (Dn, none) := by
    have h3 := rangeLoop_concat (nicStep c) (nicStep_append c) Dn Dvm [] [] none
      (rangeLoop_nic_skip c Dn [] (fun r hr => (hDn r hr).2)) hnicD
    have h2 := rangeLoop_concat (nicStep c) (nicStep_append c) Dvm (Dn ++ Dvm) [] _ none
      hnicD h3
    have h1 := rangeLoop_concat (nicStep c) (nicStep_append c) S (Dvm ++ (Dn ++ Dvm)) Dn _ none
      hN1 h2
    simpa using h1
  have hsecond : PopulateResource c T = (T ++ (Dvm ++ Dn), none) := by
    rw [← h]
    unfold PopulateResource populateForVirtualMachine
    rw [rangeLoop_append (vmStep c) (vmStep_append c)]
    have e1 : S ++ Dvm ++ Dn = S ++ (Dvm ++ Dn) := by simp
    rw [e1, hvm2]
    simp only [populateForNetworkInterfaces]
    rw [rangeLoop_append (nicStep c) (nicStep_append c)]
    have e2 : S ++ (Dvm ++ Dn) ++ Dvm = S ++ (Dvm ++ (Dn ++ Dvm)) := by simp
    rw [e2, hnic2]
    simp
  refine ⟨Dvm ++ Dn, ?_, hD, hsecond, ?_, ?_⟩
  · rw [← h]; simp
  · rw [hsecond]
    simp
  · intro hS
    have hv := rangeLoop_vm_nil c b0 hmarshal hdisk S [] hS
    rw [hV] at hv
    have hn := rangeLoop_nic_nil c b0 hmarshal hnsg hip S hS
    rw [hN1] at hn
    simp only [Prod.mk.injEq, and_true] at hv
    simp only at hn
    rw [hv, hn]
    rfl

/-- C6, amended, at the virtual machine that references `disk1`: the second
application appends the disk and the attachment again. -/
theorem C6_populate_twice_witness :
    PopulateResource sampleCollaborators [sampleVM]
      = ([sampleVM, sampleDisk, sampleAttachment], none)
    ∧ ∃ D, [sampleVM, sampleDisk, sampleAttachment] = [sampleVM] ++ D
      ∧ PopulateResource sampleCollaborators [sampleVM, sampleDisk, sampleAttachment]
        = ([sampleVM, sampleDisk, sampleAttachment] ++ D, none) :=
  ⟨by decide,
    match C6_populate_twice sampleCollaborators "null" rfl rfl rfl rfl [sampleVM]
        [sampleVM, sampleDisk, sampleAttachment] (by decide) with
    | ⟨D, hT, _, hsecond, _⟩ => ⟨D, hT, hsecond⟩⟩

end resourceset

/-! ## `ListResource`: `IsRecommended` -/

namespace meta

open resourceset

theorem azureadLoop_mem (m : MetaResource) :
    ∀ (ids : List String) (k : Nat) (x : ImportItem), x ∈ azureadLoop m k ids →
      ∃ i id, x = azureadItem m i id := by
  intro ids
  induction ids with
  | nil => intro k x hx; simp [azureadLoop] at hx
  | cons id ids ih =>
    intro k x hx
    rw [azureadLoop] at hx
    rcases List.mem_cons.mp hx with h | h
    · exact ⟨k, id, h⟩
    · exact ih (k + 1) x h

theorem armLoop_mem (c : Collaborators) (m : MetaResource) (n : Nat) :
    ∀ (rl : List TFResource) (k : Nat) (l : ImportList), armLoop c m n k rl = .ok l →
      ∀ x ∈ l, ∃ i res, armItem c m n i res = .ok x := by
  intro rl
  induction rl with
  | nil => intro k l h x hx; simp [armLoop] at h; subst h; cases hx
  | cons res rest ih =>
    intro k l h x hx
    rw [armLoop] at h
    cases hitem : armItem c m n k res with
    | error e => rw [hitem] at h; cases h
    | ok item =>
      rw [hitem] at h
      simp only at h
      cases hrest : armLoop c m n (k + 1) rest with
      | error e => rw [hrest] at h; cases h
      | ok l2 =>
        rw [hrest] at h
        cases h
        rcases List.mem_cons.mp hx with h1 | h1
        · exact ⟨k, res, by rw [h1]; exact hitem⟩
        · exact ih (k + 1) l2 hrest x h1

theorem armItem_recommended (c : Collaborators) (m : MetaResource) (n i : Nat)
    (res : TFResource) (item : ImportItem) (h : armItem c m n i res = .ok item) :
    item.IsRecommended = (m.ResourceType == "") := by
  unfold armItem at h
  simp only at h
  by_cases hc : (m.ResourceType != "" && m.ResourceType != res.TFType) = true
  · rw [if_pos hc] at h
    have hne : m.ResourceType ≠ "" := by
      have : m.ResourceType ≠ "" ∧ m.ResourceType ≠ res.TFType := by simpa using hc
      exact this.1
    cases hq : c.QueryId (c.IdString res.AzureId) m.ResourceType with
    | error e => rw [hq] at h; cases h
    | ok tfid =>
      rw [hq] at h
      cases h
      simp [hne]
  · rw [if_neg hc] at h
    cases h
    rfl

/-- In the `azurerm`/`azapi` loop `IsRecommended` is true exactly when
`ResourceType` is empty; in the `azuread` loop, which passes the ids through
with the declared type, it is false. -/
theorem ListResource_recommended (c : Collaborators) (m : MetaResource) (l : ImportList)
    (h : m.ListResource c = .ok l) :
    (m.providerName = "azurerm" ∨ m.providerName = "azapi" →
        ∀ x ∈ l, (x.IsRecommended = true ↔ m.ResourceType = ""))
    ∧ (m.providerName = "azuread" → ∀ x ∈ l, x.IsRecommended = false) := by
  unfold MetaResource.ListResource at h
  split at h
  · rename_i hp
    have hp2 : m.providerName = "azuread" := by simpa using hp
    have hall : ∀ x ∈ l, x.IsRecommended = false := by
      cases h
      intro x hx
      obtain ⟨i, id, rfl⟩ := azureadLoop_mem m _ 0 x hx
      rfl
    refine ⟨fun hq => ?_, fun _ => hall⟩
    exfalso
    rw [hp2] at hq
    revert hq
    decide
  · rename_i hp
    have hp2 : m.providerName ≠ "azuread" := by simpa using hp
    split at h
    · split at h
      · cases h
      · refine ⟨fun _ x hx => ?_, fun hq => absurd hq hp2⟩
        obtain ⟨i, res, hitem⟩ := armLoop_mem c m _ _ 0 l h x hx
        rw [armItem_recommended c m _ i res x hitem]
        simp
    · cases h

/-- What `NewMeta` has checked when it returns a `MetaResource`: the provider
is `azurerm` or `azapi`, or it is `azuread` and the target type is given. -/
theorem NewMeta_resource (NewBaseMeta : pkgmeta.Config → Except String baseMeta)
    (resourceNamePattern : String → String × String)
    (hbase : ∀ cfg base, NewBaseMeta cfg = .ok base → base.providerName = cfg.ProviderName)
    (cfg : pkgmeta.Config) (m : MetaResource)
    (hnew : pkgmeta.NewMeta (pkgmeta.resourceConstructors NewBaseMeta resourceNamePattern) cfg
      = .ok (some m)) :
    m.ResourceType = cfg.TFResourceType
    ∧ ((m.providerName = "azurerm" ∨ m.providerName = "azapi")
      ∨ (m.providerName = "azuread" ∧ m.ResourceType ≠ "")) := by
  unfold pkgmeta.NewMeta at hnew
  split at hnew
  · cases hnew
  · split at hnew
    · cases hnew
    · rename_i hcheck
      split at hnew
      · split at hnew <;> simp [pkgmeta.resourceConstructors] at hnew
      · split at hnew
        · split at hnew <;> simp [pkgmeta.resourceConstructors] at hnew
        · split at hnew
          · simp [pkgmeta.resourceConstructors] at hnew
          · split at hnew
            · split at hnew
              · cases hnew
              · rename_i hguard
                simp only [pkgmeta.resourceConstructors, NewMetaResource] at hnew
                cases hb : NewBaseMeta cfg with
                | error err => rw [hb] at hnew; cases hnew
                | ok base =>
                  rw [hb] at hnew
                  simp only [Except.ok.injEq, Option.some.injEq] at hnew
                  have hprov := hbase cfg base hb
                  subst hnew
                  refine ⟨rfl, ?_⟩
                  simp only
                  rw [hprov]
                  unfold pkgmeta.checkProvider at hcheck
                  split at hcheck
                  · split at hcheck
                    · cases hcheck
                    · rename_i hin
                      left
                      have hin2 : ¬ cfg.ProviderName = "azurerm" → cfg.ProviderName = "azapi" := by
                        simpa [pkgmeta.ProviderTypeAzureRM, pkgmeta.ProviderTypeAzapi] using hin
                      by_cases hrm : cfg.ProviderName = "azurerm"
                      · exact Or.inl hrm
                      · exact Or.inr (hin2 hrm)
                  · rename_i hnotarm
                    split at hcheck
                    · split at hcheck
                      · cases hcheck
                      · rename_i hin
                        right
                        refine ⟨by simpa [pkgmeta.ProviderTypeAzureAD] using hin, ?_⟩
                        intro hty
                        apply hguard
                        simp [hty]
                        simpa using hnotarm
                    · cases hcheck
            · cases hnew

/-- C11. IsRecommended: for every `MetaResource` that `NewMeta` returns,
whatever the provider, and every list that `ListResource` returns on it, each
item has `IsRecommended` true exactly when `ResourceType` is empty, and false
exactly when an explicit override type was supplied.  The provider name of
the base meta is the one of the configuration. -/
theorem C11_recommended_iff (NewBaseMeta : pkgmeta.Config → Except String baseMeta)
    (resourceNamePattern : String → String × String)
    (hbase : ∀ cfg base, NewBaseMeta cfg = .ok base → base.providerName = cfg.ProviderName)
    (cfg : pkgmeta.Config) (m : MetaResource) (c : Collaborators) (l : ImportList)
    (hnew : pkgmeta.NewMeta (pkgmeta.resourceConstructors NewBaseMeta resourceNamePattern) cfg
      = .ok (some m))
    (h : m.ListResource c = .ok l) :
    ∀ x ∈ l, (x.IsRecommended = true ↔ m.ResourceType = "")
      ∧ (x.IsRecommended = false ↔ m.ResourceType ≠ "") := by
  have hrec := ListResource_recommended c m l h
  have hiff : ∀ x ∈ l, (x.IsRecommended = true ↔ m.ResourceType = "") := by
    intro x hx
    rcases (NewMeta_resource NewBaseMeta resourceNamePattern hbase cfg m hnew).2 with hp | hp
    · exact hrec.1 hp x hx
    · have hf := hrec.2 hp.1 x hx
      rw [hf]
      constructor
      · intro ht; cases ht
      · intro hty; exact absurd hty hp.2
  intro x hx
  refine ⟨hiff x hx, ?_⟩
  have hx2 := hiff x hx
  constructor
  · intro hf hty
    rw [hx2.2 hty] at hf
    cases hf
  · intro hty
    cases hr : x.IsRecommended with
    | false => rfl
    | true => exact absurd (hx2.1 hr) hty

/-- C11 at a directory configuration with two ids and the target type
`azuread_group`, and at an `arm` configuration with one id and no override
type: the items of the first are not recommended, the item of the second
is. -/
theorem C11_recommended_iff_witness :
    (∃ m l, pkgmeta.NewMeta (pkgmeta.resourceConstructors pkgmeta.sampleBaseMeta
          pkgmeta.samplePattern) pkgmeta.sampleDirectoryIds = .ok (some m)
      ∧ m.ListResource sampleCollaborators = .ok l
      ∧ l.length = 2 ∧ m.ResourceType ≠ ""
      ∧ ∀ x ∈ l, x.IsRecommended = false)
    ∧ (∃ m l, pkgmeta.NewMeta (pkgmeta.resourceConstructors pkgmeta.sampleBaseMeta
          pkgmeta.samplePattern) pkgmeta.sampleArmIds = .ok (some m)
      ∧ m.ListResource sampleCollaborators = .ok l
      ∧ l.length = 1 ∧ m.ResourceType = ""
      ∧ ∀ x ∈ l, x.IsRecommended = true) :=
  ⟨⟨_, _, rfl, rfl, by decide, by decide, fun x hx =>
      ((C11_recommended_iff pkgmeta.sampleBaseMeta pkgmeta.samplePattern
        (fun _ _ hb => by cases hb; rfl) pkgmeta.sampleDirectoryIds _ sampleCollaborators _
        rfl rfl x hx).2).2 (by decide)⟩,
    ⟨_, _, rfl, rfl, by decide, by decide, fun x hx =>
      ((C11_recommended_iff pkgmeta.sampleBaseMeta pkgmeta.samplePattern
        (fun _ _ hb => by cases hb; rfl) pkgmeta.sampleArmIds _ sampleCollaborators _
        rfl rfl x hx).1).2 (by decide)⟩⟩

end meta

/-! ## `PopulateResource`: the set after a failure -/

namespace resourceset

variable {Doc : Type}

theorem nicStep_props (c : Collaborators Doc) (acc : List (AzureResource Doc))
    (res : AzureResource Doc) (h : ∀ r ∈ acc, r.Properties = none) :
    ∀ r ∈ (nicStep c acc res).1, r.Properties = none := by
  intro r hr
  rw [nicStep_append c acc res] at hr
  rcases List.mem_append.mp hr with h1 | h1
  · exact h r h1
  · exact (nicStep_out_props c res r h1).1

/-- Whatever the outcome, `PopulateResource` leaves the set it was given in
place and only appends resources without properties. -/
theorem PopulateResource_keeps_set (c : Collaborators Doc) (S T : List (AzureResource Doc))
    (e : Option Failure) (h : PopulateResource c S = (T, e)) :
    ∃ D, T = S ++ D ∧ ∀ d ∈ D, d.Properties = none := by
  unfold PopulateResource populateForVirtualMachine at h
  rw [rangeLoop_append (vmStep c) (vmStep_append c) S S] at h
  have hDvm : ∀ r ∈ (rangeLoop (vmStep c) S []).1, r.Properties = none :=
    rangeLoop_preserves (vmStep c) (fun r => r.Properties = none) (vmStep_props c) S []
      (by simp)
  rcases hV : rangeLoop (vmStep c) S [] with ⟨Dvm, _ | f⟩
  · rw [hV] at h hDvm
    simp only [populateForNetworkInterfaces] at h
    rw [rangeLoop_append (nicStep c) (nicStep_append c) (S ++ Dvm) (S ++ Dvm)] at h
    have hDn : ∀ r ∈ (rangeLoop (nicStep c) (S ++ Dvm) []).1, r.Properties = none :=
      rangeLoop_preserves (nicStep c) (fun r => r.Properties = none) (nicStep_props c)
        (S ++ Dvm) [] (by simp)
    simp only [Prod.mk.injEq] at h
    refine ⟨Dvm ++ (rangeLoop (nicStep c) (S ++ Dvm) []).1, ?_, ?_⟩
    · rw [← h.1]; simp
    · intro d hd
      rcases List.mem_append.mp hd with h1 | h1
      · exact hDvm d h1
      · exact hDn d h1
  · rw [hV] at h hDvm
    simp only [Prod.mk.injEq] at h
    exact ⟨Dvm, h.1.symm, hDvm⟩

/-- C12 as stated fails: on the virtual machine that references `disk1`, with
a failing target-id query, `PopulateResource` returns the error and leaves the
disk appended to the set. -/
theorem C12_counterexample :
    PopulateResource sampleFailingQuery [sampleVM]
      = ([sampleVM, sampleDisk],
          some (.error ("querying resource id for " ++ sampleIdString sampleVM.Id
            ++ ": not found")))
    ∧ [sampleVM, sampleDisk] ≠ [sampleVM] := by
  decide

/-- C12, amended. When `PopulateResource` fails on the set `S`, the set after
the call is `S` followed by what was appended before the failure, resources
without properties: nothing is removed or reordered, but the call is not
undone.  In particular, when the first resource of the set is a virtual
machine whose properties reference the disks `d :: ds` and whose target-id
query fails, the error is returned and the disks stay appended. -/
theorem C12_populate_failure (c : Collaborators Doc) (S T : List (AzureResource Doc))
    (f : Failure) (h : PopulateResource c S = (T, some f)) :
    (∃ D, T = S ++ D ∧ ∀ d ∈ D, d.Properties = none)
    ∧ (∀ (vm d : AzureResource Doc) (rest ds : List (AzureResource Doc)) (err : String),
        ToUpper vm.Id.RouteScopeString = "/MICROSOFT.COMPUTE/VIRTUALMACHINES" →
        populateResourceByPath c vm ["properties.storageProfile.dataDisks.#.managedDisk.id"]
          = .ok (d :: ds) →
        d.Id.Names ≠ [] →
        c.QueryId (c.IdString vm.Id) "azurerm_linux_virtual_machine" = .error err →
        PopulateResource c (vm :: rest)
          = (vm :: rest ++ d :: ds,
              some (.error ("querying resource id for " ++ c.IdString vm.Id ++ ": " ++ err)))) := by
  refine ⟨PopulateResource_keeps_set c S T (some f) h, ?_⟩
  intro vm d rest ds err hvm hpath hname hq
  cases hn : d.Id.Names with
  | nil => exact absurd hn hname
  | cons diskName more =>
    have hstep : vmStep c (vm :: rest) vm
        = (vm :: rest ++ d :: ds,
            some (.error ("querying resource id for " ++ c.IdString vm.Id ++ ": " ++ err))) := by
      simp [vmStep, hvm, hpath, attachLoop, hn, hq]
    simp [PopulateResource, populateForVirtualMachine, rangeLoop, hstep]

/-- C12, amended, at the virtual machine that references `disk1`, with a
failing target-id query: the set after the call is the machine followed by
the disk. -/
theorem C12_populate_failure_witness :
    PopulateResource sampleFailingQuery [sampleVM]
      = ([sampleVM, sampleDisk],
          some (.error ("querying resource id for " ++ sampleIdString sampleVM.Id
            ++ ": not found")))
    ∧ ∃ D, [sampleVM, sampleDisk] = [sampleVM] ++ D ∧ ∀ d ∈ D, d.Properties = none :=
  ⟨by decide,
    (C12_populate_failure sampleFailingQuery [sampleVM] [sampleVM, sampleDisk]
      (.error ("querying resource id for " ++ sampleIdString sampleVM.Id ++ ": not found"))
      (by decide)).1⟩

/-! ## `ReduceResource`: unmatched halves -/

theorem half_condition (res : AzureResource Doc) :
    (!EqualFold res.Id.RouteScopeString "/Microsoft.KeyVault/vaults/keys"
      && !EqualFold res.Id.RouteScopeString "/Microsoft.KeyVault/vaults/secrets")
      = !isCertificateHalf res := by
  simp [isCertificateHalf, isVaultKey, isVaultSecret]

/-- A half whose trailing name is not a key of `pending` is filed in
`pending`. -/
theorem reduceLoop_pending (h1 : AzureResource Doc) (name : String)
    (hh : isCertificateHalf h1 = true) (hn : h1.Id.Names.getLast? = some name)
    (rest nr : List (AzureResource Doc)) (pend : List (String × AzureResource Doc))
    (hp : pend.lookup name = none) :
    reduceLoop (h1 :: rest) nr pend = reduceLoop rest nr (pend ++ [(name, h1)]) := by
  rw [reduceLoop, half_condition, hh]
  simp [hn, hp]

theorem reduceLoop_unmerged :
    ∀ (rest nr : List (AzureResource Doc)) (pend : List (String × AzureResource Doc)),
      (∀ r ∈ rest, isCertificateHalf r = true → r.Id.Names ≠ []) →
      ((rest.filter isCertificateHalf).map (fun r => r.Id.Names.getLast?)).Nodup →
      (∀ r ∈ rest, isCertificateHalf r = true →
        ∀ n, r.Id.Names.getLast? = some n → pend.lookup n = none) →
      reduceLoop rest nr pend
        = .ok (nr ++ rest.filter (fun r => !isCertificateHalf r),
            pend ++ (rest.filter isCertificateHalf).map
              (fun r => (r.Id.Names.getLast?.getD "", r))) := by
  intro rest
  induction rest with
  | nil => intro nr pend _ _ _; simp [reduceLoop]
  | cons r rest ih =>
    intro nr pend hnames hnodup hfresh
    by_cases hr : isCertificateHalf r = true
    · have hne : r.Id.Names ≠ [] := hnames r (by simp) hr
      obtain ⟨n, hn⟩ : ∃ n, r.Id.Names.getLast? = some n := by
        cases hl : r.Id.Names.getLast? with
        | none => exact absurd (List.getLast?_eq_none_iff.mp hl) hne
        | some n => exact ⟨n, rfl⟩
      rw [reduceLoop_pending r n hr hn rest nr pend (hfresh r (by simp) hr n hn)]
      simp only [List.filter_cons, hr, if_true, List.map_cons, List.nodup_cons] at hnodup
      rw [ih nr (pend ++ [(n, r)]) (fun x hx => hnames x (by simp [hx])) hnodup.2]
      · simp [List.filter_cons, hr, hn]
      · intro x hx hxh m hm
        rw [List.lookup_append, hfresh x (by simp [hx]) hxh m hm]
        have hmn : m ≠ n := by
          intro heq
          apply hnodup.1
          rw [hn, ← heq, ← hm]
          exact List.mem_map.mpr ⟨x, List.mem_filter.mpr ⟨hx, hxh⟩, rfl⟩
        have hb : (m == n) = false := by simpa using hmn
        simp [List.lookup, hb]
    · have hr2 : isCertificateHalf r = false := by simpa using hr
      have := reduceLoop_others [r] (by simpa using hr2) rest nr pend
      simp only [List.singleton_append] at this
      rw [this]
      simp only [List.filter_cons, hr2, Bool.false_eq_true, if_false] at hnodup
      rw [ih (nr ++ [r]) pend (fun x hx => hnames x (by simp [hx])) hnodup
        (fun x hx => hfresh x (by simp [hx]))]
      simp [List.filter_cons, hr2]

/-- C13 as stated fails: the key of `cert1`, alone and placed before a storage
account, comes out behind it. -/
theorem C13_counterexample :
    isCertificateHalf sampleKey = true ∧ isCertificateHalf sampleStorage = false
    ∧ ReduceResource id [sampleKey, sampleStorage] = ([sampleStorage, sampleKey], none)
    ∧ [sampleStorage, sampleKey] ≠ [sampleKey, sampleStorage] := by
  decide

/-- C13, amended. On a set in which the halves (vault keys and vault secrets)
have pairwise distinct trailing names, `ReduceResource` succeeds and returns
the resources that are not halves, in their order, followed by the halves in
the order in which the map `pending` is ranged: a permutation of the set.
The set is unchanged when it holds no half; a lone half placed between `A`
and `B` moves to the end. -/
theorem C13_reduce_unmerged
    (mapOrder : List (String × AzureResource Doc) → List (String × AzureResource Doc))
    (hperm : ∀ entries, (mapOrder entries).Perm entries)
    (rs : List (AzureResource Doc))
    (hnames : ∀ r ∈ rs, isCertificateHalf r = true → r.Id.Names ≠ [])
    (hdistinct : ((rs.filter isCertificateHalf).map (fun r => r.Id.Names.getLast?)).Nodup) :
    ∃ tail,
      ReduceResource mapOrder rs = (rs.filter (fun r => !isCertificateHalf r) ++ tail, none)
      ∧ tail.Perm (rs.filter isCertificateHalf)
      ∧ (rs.filter (fun r => !isCertificateHalf r) ++ tail).Perm rs
      ∧ ((∀ r ∈ rs, isCertificateHalf r = false) → ReduceResource mapOrder rs = (rs, none))
      ∧ (∀ (A B : List (AzureResource Doc)) (h : AzureResource Doc),
          rs = A ++ h :: B → isCertificateHalf h = true →
          (∀ r ∈ A ++ B, isCertificateHalf r = false) →
          ReduceResource mapOrder rs = (A ++ B ++ [h], none)) := by
  have hloop := reduceLoop_unmerged rs [] [] hnames hdistinct (by simp)
  simp only [List.nil_append] at hloop
  have hred : ReduceResource mapOrder rs
      = (rs.filter (fun r => !isCertificateHalf r)
          ++ (mapOrder ((rs.filter isCertificateHalf).map
              (fun r => (r.Id.Names.getLast?.getD "", r)))).map Prod.snd, none) := by
    simp [ReduceResource, reduceForKeyVaultCertificate, hloop]
  have htail : ((mapOrder ((rs.filter isCertificateHalf).map
      (fun r => (r.Id.Names.getLast?.getD "", r)))).map Prod.snd).Perm
      (rs.filter isCertificateHalf) := by
    have h1 := (hperm ((rs.filter isCertificateHalf).map
      (fun r => (r.Id.Names.getLast?.getD "", r)))).map Prod.snd
    simpa [List.map_map, Function.comp_def] using h1
  generalize (mapOrder ((rs.filter isCertificateHalf).map
      (fun r => (r.Id.Names.getLast?.getD "", r)))).map Prod.snd = tail at hred htail
  refine ⟨tail, hred, htail, ?_, ?_, ?_⟩
  · have h1 : (rs.filter (fun r => !isCertificateHalf r) ++ rs.filter isCertificateHalf).Perm rs :=
      List.perm_append_comm.trans (List.filter_append_perm isCertificateHalf rs)
    exact (List.Perm.append_left _ htail).trans h1
  · intro hno
    have hnil : rs.filter isCertificateHalf = [] := by
      rw [List.filter_eq_nil_iff]
      intro r hr
      simp [hno r hr]
    have hall : rs.filter (fun r => !isCertificateHalf r) = rs := by
      rw [List.filter_eq_self]
      intro r hr
      simp [hno r hr]
    rw [hnil] at htail
    rw [hred, htail.eq_nil, hall, List.append_nil]
  · intro A B h hrs hh hAB
    have hA : ∀ r ∈ A, isCertificateHalf r = false := fun r hr => hAB r (by simp [hr])
    have hB : ∀ r ∈ B, isCertificateHalf r = false := fun r hr => hAB r (by simp [hr])
    have hfA : A.filter isCertificateHalf = [] := by
      rw [List.filter_eq_nil_iff]; intro r hr; simp [hA r hr]
    have hfB : B.filter isCertificateHalf = [] := by
      rw [List.filter_eq_nil_iff]; intro r hr; simp [hB r hr]
    have hnA : A.filter (fun r => !isCertificateHalf r) = A := by
      rw [List.filter_eq_self]; intro r hr; simp [hA r hr]
    have hnB : B.filter (fun r => !isCertificateHalf r) = B := by
      rw [List.filter_eq_self]; intro r hr; simp [hB r hr]
    have hhalf : rs.filter isCertificateHalf = [h] := by
      rw [hrs, List.filter_append, List.filter_cons, hfA, hfB]
      simp [hh]
    have hother : rs.filter (fun r => !isCertificateHalf r) = A ++ B := by
      rw [hrs, List.filter_append, List.filter_cons, hnA, hnB]
      simp [hh]
    rw [hhalf] at htail
    rw [hred, hother, List.perm_singleton.mp htail]

/-- C13, amended, at the key of `cert1` placed before a storage account: the
storage account comes first and the key follows. -/
theorem C13_reduce_unmerged_witness :
    ReduceResource id [sampleKey, sampleStorage] = ([sampleStorage, sampleKey], none)
    ∧ ReduceResource id [sampleStorage] = ([sampleStorage], none) :=
  match C13_reduce_unmerged id (fun _ => List.Perm.refl _) [sampleKey, sampleStorage]
      (by decide) (by decide) with
  | ⟨_, _, _, _, _, hlone⟩ =>
    ⟨hlone [] [sampleStorage] sampleKey rfl (by decide) (by decide), by decide⟩

/-! ## `ReduceResource`: what is paired -/

/-- C14 at two failing inputs. The key `cert1` of vault `kv` followed by the
key `cert1` of vault `kv2`, two resources of the same kind in different
vaults, are replaced by the single certificate `cert1` of `kv2`; so are the
key `cert1` of `kv` followed by the secret `cert1` of `kv2`.  In both cases
neither input is retained. -/
theorem C14_merges_by_name_only :
    (isVaultKey sampleKey = true ∧ isVaultKey sampleKeyOtherVault = true
      ∧ sampleKey.Id.Parent ≠ sampleKeyOtherVault.Id.Parent
      ∧ ReduceResource id [sampleKey, sampleKeyOtherVault]
        = ([{ Id := .ScopedResourceId (.ResourceGroup "sub" "rg") "Microsoft.KeyVault"
                ["vaults", "certificates"] ["kv2", "cert1"] }], none))
    ∧ (isVaultKey sampleKey = true ∧ isVaultSecret sampleSecretOtherVault = true
      ∧ sampleKey.Id.Parent ≠ sampleSecretOtherVault.Id.Parent
      ∧ ReduceResource id [sampleKey, sampleSecretOtherVault]
        = ([{ Id := .ScopedResourceId (.ResourceGroup "sub" "rg") "Microsoft.KeyVault"
                ["vaults", "certificates"] ["kv2", "cert1"] }], none)) := by
  decide

end resourceset

end Aztfy
